import Mathlib

/-!
Verification development for the incremental build-orchestration core
(BundleGraphRequest.js and ParcelBuildRequest.js): a shallow embedding of
the BundlerRunner phased bundle-graph computation, its cache probes,
incremental-reuse decision, hashing, naming, and the surrounding build
pipeline, together with theorems settling the specification claims.
-/

namespace Parcel

/-! ## Data model -/

/-- Asset: a content-addressed unit of source input; only its identity is
relevant to the operations under verification. -/
structure Asset where
  id : String
deriving DecidableEq, Repr

/-- Bundle: an output unit.  Fields mirror the attributes the engine touches:
generated name and displayName, the hashReference placeholder token, the
target distribution directory, and the inline flag. -/
structure Bundle where
  name : Option String
  displayName : Option String
  hashReference : String
  distDir : String
  isInline : Bool
deriving DecidableEq, Repr

/-- Origin of a working bundle graph: freshly created from the asset graph
(InternalBundleGraph.fromAssetGraph), deserialized from the durable cache
(deserializeToCache), or whatever a stored prior result carried. -/
inductive BGOrigin
  | fresh (assetGraphHash : String)
  | deserialized (bytes : String)
deriving DecidableEq, Repr

/-- BundleGraphM: the working bundle graph.  The updatedAssets log records
the updateAsset patch operations applied to it (the incremental-reuse
"apply changed asset" operation). -/
structure BundleGraphM where
  origin : BGOrigin
  bundles : List Bundle
  updatedAssets : List String
deriving DecidableEq, Repr

/-- Operation updateAsset: the narrow content/metadata refresh applied per
changed asset during incremental reuse. -/
def BundleGraphM.updateAsset (g : BundleGraphM) (a : Asset) : BundleGraphM :=
  { g with updatedAssets := g.updatedAssets ++ [a.id] }

/-- Operation InternalBundleGraph.fromAssetGraph: a fresh working graph,
bundles still unassigned (the bundler plugin assigns them). -/
def BundleGraphM.fromAssetGraph (assetGraphHash : String) : BundleGraphM :=
  { origin := .fresh assetGraphHash, bundles := [], updatedAssets := [] }

/-- Build errors, by the source's three distinct shapes: a
ThrowableDiagnostic wrapping a thrown plugin error with the plugin name as
origin, a plain thrown Error, and an assert failure (AssertionError). -/
inductive BuildError
  | pluginDiagnostic (origin : String) (message : String)
  | plainError (message : String)
  | assertionError (message : String)
deriving DecidableEq, Repr

/-- Dev dependency request input: specifier and resolveFrom. -/
structure DevDep where
  specifier : String
  resolveFrom : String
deriving DecidableEq, Repr

/-- Key of a dev dependency record, as built in runDevDepRequest. -/
def devDepKey (dd : DevDep) : String := dd.specifier ++ ":" ++ dd.resolveFrom

/-- Result object stored via api.storeResult and returned by
api.getPreviousResult / api.getRequestResult.  The bundlerHash field is
optional because the durable-cache-hit path stores a result without it. -/
structure StoredResult where
  bundleGraph : BundleGraphM
  bundlerHash : Option String
  changedAssets : List (String × Asset)
deriving DecidableEq, Repr

/-- Value returned by BundlerRunner.bundle.  The three constructors are the
three return statements of the source: the full three-field record, the
previous stored result returned as-is on a resident-cache hit, and the bare
deserialized graph returned on a durable-cache hit. -/
inductive BundleReturn
  | result (bundleGraph : BundleGraphM) (bundlerHash : String)
      (changedAssets : List (String × Asset))
  | previousResult (r : StoredResult)
  | bareGraph (g : BundleGraphM)
deriving DecidableEq, Repr

/-- Property access result.bundleGraph on a BundlerRunner.bundle return
value; a bare deserialized graph has no such property (undefined). -/
def BundleReturn.bundleGraphField : BundleReturn → Option BundleGraphM
  | .result g _ _ => some g
  | .previousResult r => some r.bundleGraph
  | .bareGraph _ => none

/-- Property access result.changedAssets on a BundlerRunner.bundle return
value; a bare deserialized graph has no such property (undefined). -/
def BundleReturn.changedAssetsField : BundleReturn → Option (List (String × Asset))
  | .result _ _ m => some m
  | .previousResult r => some r.changedAssets
  | .bareGraph _ => none

instance {ε α : Type} [DecidableEq ε] [DecidableEq α] : DecidableEq (Except ε α) :=
  fun a b =>
    match a, b with
    | .error x, .error y =>
      if h : x = y then .isTrue (by rw [h])
      else .isFalse (by intro hc; cases hc; exact h rfl)
    | .error _, .ok _ => .isFalse (by intro hc; cases hc)
    | .ok _, .error _ => .isFalse (by intro hc; cases hc)
    | .ok x, .ok y =>
      if h : x = y then .isTrue (by rw [h])
      else .isFalse (by intro hc; cases hc; exact h rfl)

/-- Observable events of one computation, in execution order. -/
inductive Ev
  | loadConfig (plugin : String)
  | runDevDep (key : String)
  | getPreviousResult (key : String)
  | durableLookup (key : String)
  | getRequestResult (id : String)
  | updateAsset (assetId : String)
  | bundlerBundle
  | bundlerOptimize
  | namerInvoke (namer : String)
  | applyRuntimes
  | storeResult (key : String)
  | assetGraphBuild
  | writeBundles
  | checkAbortSignal
deriving DecidableEq, Repr

/-! ## Plugins and environment -/

/-- Loaded plugin with its configuration: name, resolveFrom, the
configuration content hash, and the dev dependencies discovered while
loading its configuration (config.devDeps). -/
structure PluginSpec where
  name : String
  resolveFrom : String
  configHash : String
  configDevDeps : List DevDep

/-- Namer plugin: a PluginSpec together with its name operation, which may
throw (error), return null (ok none), or return a name (ok some). -/
structure NamerSpec where
  name : String
  resolveFrom : String
  configHash : String
  configDevDeps : List DevDep
  run : Bundle → Except String (Option String)

/-- View of a namer as a plugin for configuration loading. -/
def NamerSpec.toPluginSpec (n : NamerSpec) : PluginSpec :=
  { name := n.name, resolveFrom := n.resolveFrom, configHash := n.configHash,
    configDevDeps := n.configDevDeps }

/-- Environment of one computation: options, the selected bundler plugin and
its two operations, the namer and runtime plugins, the request substrate
(getPreviousResult, getRequestResult), the durable cache, and the external
hashing collaborators. -/
structure Env where
  parcelVersion : String
  mode : String
  shouldDisableCache : Bool
  bundler : PluginSpec
  bundleFn : BundleGraphM → Except String BundleGraphM
  optimizeFn : BundleGraphM → Except String BundleGraphM
  namers : List NamerSpec
  runtimes : List PluginSpec
  getPreviousResult : String → Option StoredResult
  cacheGetBuffer : String → Option String
  deserialize : String → BundleGraphM
  getRequestResult : String → Option StoredResult
  devDepHash : DevDep → String
  applyRuntimesFn : BundleGraphM → BundleGraphM × List (String × Asset) × List DevDep
  invalidationHashFn : List String → String
  hashString : String → String

/-- Input of BundlerRunner.bundle: the asset graph (its hash and its
safeToIncrementallyBundle flag), the previous asset graph hash, and the
changed assets map. -/
structure BundleInput where
  assetGraphHash : String
  safeToIncrementallyBundle : Bool
  previousAssetGraphHash : Option String
  changedAssets : List (String × Asset)

/-! ## Runner state -/

/-- Mutable state of the BundlerRunner: the per-plugin config map
(this.configs, name to config hash), the dev-dependency request map
(this.devDepRequests, key to hash), and the invalidations registered with
the request substrate.  Both maps are insertion-ordered. -/
structure RunnerState where
  configs : List (String × String)
  devDepRequests : List (String × String)
  invalidations : List String
deriving DecidableEq, Repr

/-- Insertion-ordered map update with JS Map.set semantics: an existing key
keeps its position and gets the new value, a new key is appended. -/
def mapSet {α : Type} (m : List (String × α)) (k : String) (v : α) :
    List (String × α) :=
  if m.any (fun p => p.1 == k) then
    m.map (fun p => if p.1 == k then (k, v) else p)
  else m ++ [(k, v)]

/-- Operation runDevDepRequest: record the dev dependency under
specifier + ":" + resolveFrom and register its invalidations with the
request substrate.  Modelled from the spec: the invalidation registration
performed by the DevDepRequest module (not part of the source under
review) is represented by appending the record's key to the invalidation
set. -/
def runDevDepRequest (st : RunnerState) (dd : DevDep) (hash : String) :
    RunnerState × Ev :=
  let key := devDepKey dd
  ({ st with devDepRequests := mapSet st.devDepRequests key hash,
             invalidations := st.invalidations ++ [key] },
   Ev.runDevDep key)

/-- Sequence of createDevDependency / runDevDepRequest calls over a list of
dev dependencies, with the content hash provided by the environment. -/
def runDevDeps (devDepHash : DevDep → String) (st : RunnerState) :
    List DevDep → RunnerState × List Ev
  | [] => (st, [])
  | dd :: rest =>
    let s1 := runDevDepRequest st dd (devDepHash dd)
    let s2 := runDevDeps devDepHash s1.1 rest
    (s2.1, s1.2 :: s2.2)

/-- Operation loadConfig: load the plugin's configuration, run the config
request, record the dev dependencies discovered while loading it, then
store the config in this.configs under the plugin name. -/
def loadConfig (devDepHash : DevDep → String) (st : RunnerState)
    (p : PluginSpec) : RunnerState × List Ev :=
  let s1 := runDevDeps devDepHash st p.configDevDeps
  ({ s1.1 with configs := mapSet s1.1.configs p.name p.configHash },
   Ev.loadConfig p.name :: s1.2)

/-- Configuration loading over a list of plugins, in order. -/
def loadConfigList (devDepHash : DevDep → String) (st : RunnerState) :
    List PluginSpec → RunnerState × List Ev
  | [] => (st, [])
  | p :: ps =>
    let s1 := loadConfig devDepHash st p
    let s2 := loadConfigList devDepHash s1.1 ps
    (s2.1, s1.2 ++ s2.2)

/-- Operation loadConfigs: load all configs up front, bundler first, then
the namers, then the runtimes. -/
def loadConfigs (env : Env) (st : RunnerState) : RunnerState × List Ev :=
  loadConfigList env.devDepHash st
    (env.bundler :: (env.namers.map NamerSpec.toPluginSpec ++ env.runtimes))

/-- Initial BundlerRunner state: empty config map, empty dev-dependency
map, no invalidations. -/
def initialState : RunnerState := { configs := [], devDepRequests := [], invalidations := [] }

/-! ## Hashing -/

/-- Operation getHashes: the cache key hashes tool version, asset graph
hash, concatenated config hashes, concatenated dev-dependency hashes,
invalidation hash and mode; the bundler hash hashes tool version, bundler
plugin name and concatenated config hashes. -/
def getHashes (env : Env) (st : RunnerState) (assetGraphHash : String) :
    String × String :=
  let configs := String.join (st.configs.map (fun p => p.2))
  let devDepRequests := String.join (st.devDepRequests.map (fun p => p.2))
  let invalidations := env.invalidationHashFn st.invalidations
  (env.hashString (env.parcelVersion ++ assetGraphHash ++ configs ++
      devDepRequests ++ invalidations ++ env.mode),
   env.hashString (env.parcelVersion ++ env.bundler.name ++ configs))

/-- State after the up-front config loading, used by the first, probing
cache-key computation. -/
def preState (env : Env) : RunnerState := (loadConfigs env initialState).1

/-- The first (pre-phase) cacheKey and bundlerHash of a computation. -/
def probeKeys (env : Env) (assetGraphHash : String) : String × String :=
  getHashes env (preState env) assetGraphHash

/-! ## Naming -/

/-- Test whether the pattern occurs in the list starting at its head. -/
def listStartsWith : List Char → List Char → Bool
  | [], _ => true
  | _ :: _, [] => false
  | p :: ps, c :: cs => p == c && listStartsWith ps cs

/-- Index of the first occurrence of the pattern, following the JS
String.prototype semantics (an empty pattern occurs at index 0). -/
def findSub (pat : List Char) : List Char → Option Nat
  | [] => if pat.isEmpty then some 0 else none
  | c :: cs =>
    if listStartsWith pat (c :: cs) then some 0
    else (findSub pat cs).map (· + 1)

/-- JS String.prototype.includes. -/
def jsIncludes (s pat : String) : Bool := (findSub pat.data s.data).isSome

/-- JS String.prototype.replace with a string pattern: replaces the first
occurrence only. -/
def jsReplaceFirst (s pat rep : String) : String :=
  match findSub pat.data s.data with
  | none => s
  | some i => ⟨s.data.take i ++ rep.data ++ s.data.drop (i + pat.data.length)⟩

/-- Assignment performed by a winning namer: the bundle's name becomes the
returned name, and its displayName substitutes a readable hash marker for
the hashReference token when the name contains it. -/
def namedBundle (bundle : Bundle) (nm : String) : Bundle :=
  { bundle with
    name := some nm
    displayName := some (if jsIncludes nm bundle.hashReference then
      jsReplaceFirst nm bundle.hashReference "[hash]" else nm) }

/-- Operation nameBundle: try the namers in list order; a thrown namer
error is wrapped into a diagnostic with the namer as origin; the first
non-null name wins, sets name and displayName and stops; if every namer
returns null, throw the plain naming-exhaustion Error.  The second
component is the list of namer invocations performed. -/
def nameBundle : List NamerSpec → Bundle → Except BuildError Bundle × List Ev
  | [], _ => (.error (.plainError "Unable to name bundle"), [])
  | namer :: rest, bundle =>
    match namer.run bundle with
    | .error e => (.error (.pluginDiagnostic namer.name e), [Ev.namerInvoke namer.name])
    | .ok (some nm) => (.ok (namedBundle bundle nm), [Ev.namerInvoke namer.name])
    | .ok none =>
      let s := nameBundle rest bundle
      (s.1, Ev.namerInvoke namer.name :: s.2)

/-- Naming of every bundle in the graph, in order; the first failure wins. -/
def nameAllBundles (namers : List NamerSpec) :
    List Bundle → Except BuildError (List Bundle) × List Ev
  | [] => (.ok [], [])
  | b :: bs =>
    match nameBundle namers b with
    | (.error e, evs) => (.error e, evs)
    | (.ok b', evs) =>
      match nameAllBundles namers bs with
      | (.error e, evs2) => (.error e, evs ++ evs2)
      | (.ok bs', evs2) => (.ok (b' :: bs'), evs ++ evs2)

/-- Worker for uniqueJs: keep the first occurrence of each element, in
order, skipping elements already seen. -/
def uniqueJsAux (seen : List String) : List String → List String
  | [] => []
  | x :: xs =>
    if seen.contains x then uniqueJsAux seen xs
    else x :: uniqueJsAux (x :: seen) xs

/-- JS-style uniqueness filter, the unique helper of the source: the list
of first occurrences in order (the spread of a Set built from the list). -/
def uniqueJs (l : List String) : List String := uniqueJsAux [] l

/-- Modelled from the spec: joinProjectPath (defined in projectPath.js,
which is not part of the source under review) joins a bundle's target
distDir and its name into the output path identifying the bundle, the
"(distDir, name) pair" of the spec. -/
def joinProjectPath (distDir name : String) : String := distDir ++ "/" ++ name

/-- Operation nameBundles: name every bundle (inline bundles included),
then record the namers' dev dependencies (after running them, to account
for lazy requires), then assert that all bundle names are unique. -/
def nameBundles (env : Env) (st : RunnerState) (g : BundleGraphM) :
    Except BuildError (BundleGraphM × RunnerState) × List Ev :=
  match nameAllBundles env.namers g.bundles with
  | (.error e, evs) => (.error e, evs)
  | (.ok named, evs) =>
    let s1 := runDevDeps env.devDepHash st
      (env.namers.map (fun nm => { specifier := nm.name, resolveFrom := nm.resolveFrom }))
    let bundleNames := named.map (fun b => joinProjectPath b.distDir (b.name.getD ""))
    if bundleNames = uniqueJs bundleNames then
      (.ok ({ g with bundles := named }, s1.1), evs ++ s1.2)
    else
      (.error (.assertionError "Bundles must have unique names"), evs ++ s1.2)

/-! ## Runtime injection -/

/-- Modelled from the spec: applyRuntimes (applyRuntimes.js, not part of
the source under review) injects runtime glue assets into bundles, records
dev dependencies for the runtime plugins it ran (through the shared
devDepRequests map), and returns the set of assets it changed.  Its
concrete behaviour is supplied by the environment. -/
def runApplyRuntimes (env : Env) (st : RunnerState) (g : BundleGraphM) :
    BundleGraphM × List (String × Asset) × RunnerState × List Ev :=
  let r := env.applyRuntimesFn g
  let s1 := runDevDeps env.devDepHash st r.2.2
  (r.1, r.2.1, s1.1, Ev.applyRuntimes :: s1.2)

/-! ## The phased algorithm -/

/-- Incremental-reuse fetch: when the asset graph is safe to incrementally
bundle and a previous asset graph hash is present, fetch the prior
computation's result keyed by that hash; a fetch failure (absent or
errored result) is absorbed and yields none. -/
def fetchPrevious (env : Env) (inp : BundleInput) :
    Option StoredResult × List Ev :=
  match inp.previousAssetGraphHash with
  | some prevHash =>
    if inp.safeToIncrementallyBundle then
      (env.getRequestResult ("BundleGraph:" ++ prevHash),
       [Ev.getRequestResult ("BundleGraph:" ++ prevHash)])
    else (none, [])
  | none => (none, [])

/-- Incremental-reuse decision: the flag is forced to false when the prior
result is absent or its bundlerHash differs from the freshly computed one
(a result stored without a bundlerHash never compares equal); otherwise
the asset graph's flag is left as it was. -/
def decideSafeFlag (inp : BundleInput) (fetched : Option StoredResult)
    (bundlerHash : String) : Bool :=
  match fetched with
  | none => false
  | some r =>
    if r.bundlerHash = some bundlerHash then inp.safeToIncrementallyBundle
    else false

/-- Phase BUNDLE / OPTIMIZE (the try block): on the incremental path,
reuse the prior graph and apply one updateAsset patch per changed asset;
on the full path, create a fresh graph, run the bundler plugin's bundle
operation, and in production mode its optimize operation; thrown plugin
errors are wrapped into diagnostics carrying the bundler's name. -/
def runPhase (env : Env) (inp : BundleInput) (fetched : Option StoredResult)
    (safeFlag : Bool) : Except BuildError BundleGraphM × List Ev :=
  if safeFlag then
    match fetched with
    | some prev =>
      (.ok (inp.changedAssets.foldl (fun g ca => g.updateAsset ca.2) prev.bundleGraph),
       inp.changedAssets.map (fun ca => Ev.updateAsset ca.2.id))
    | none => (.error (.pluginDiagnostic env.bundler.name "Expected non-null"), [])
  else
    match env.bundleFn (BundleGraphM.fromAssetGraph inp.assetGraphHash) with
    | .error msg => (.error (.pluginDiagnostic env.bundler.name msg), [Ev.bundlerBundle])
    | .ok g1 =>
      if env.mode = "production" then
        match env.optimizeFn g1 with
        | .error msg =>
          (.error (.pluginDiagnostic env.bundler.name msg),
           [Ev.bundlerBundle, Ev.bundlerOptimize])
        | .ok g2 => (.ok g2, [Ev.bundlerBundle, Ev.bundlerOptimize])
      else (.ok g1, [Ev.bundlerBundle])

/-- Result of one BundlerRunner.bundle computation: the returned value (or
error), the event trace, the asset graph's safeToIncrementallyBundle flag
after the run, the storeResult calls performed, and the final runner
state. -/
structure RunOut where
  result : Except BuildError BundleReturn
  trace : List Ev
  safeToIncrementallyBundle : Bool
  stores : List (String × StoredResult)
  finalState : RunnerState
deriving DecidableEq, Repr

/-- Dev-dependency record for the bundler plugin itself, added after the
bundle phase completes (lazy requires may only execute inside it). -/
def bundlerDevDep (env : Env) : DevDep :=
  { specifier := env.bundler.name, resolveFrom := env.bundler.resolveFrom }

/-- Post-phase steps shared by the incremental and full paths: record the
bundler's dev dependency (after its phase), name all bundles, inject
runtimes, recompute the authoritative cache key over the updated state,
and store the final result under it. -/
def postPhase (env : Env) (inp : BundleInput) (st0 : RunnerState)
    (bundlerHash : String) (safeFlag : Bool) (g : BundleGraphM)
    (tr : List Ev) : RunOut :=
  let s1 := runDevDepRequest st0 (bundlerDevDep env) (env.devDepHash (bundlerDevDep env))
  match nameBundles env s1.1 g with
  | (.error e, nEvs) =>
    { result := .error e, trace := tr ++ s1.2 :: nEvs,
      safeToIncrementallyBundle := safeFlag, stores := [], finalState := s1.1 }
  | (.ok (g2, st2), nEvs) =>
    let r := runApplyRuntimes env st2 g2
    let g3 := r.1
    let changedRuntimes := r.2.1
    let st3 := r.2.2.1
    let rEvs := r.2.2.2
    let updatedCacheKey := (getHashes env st3 inp.assetGraphHash).1
    { result := .ok (.result g3 bundlerHash changedRuntimes),
      trace := tr ++ (s1.2 :: (nEvs ++ rEvs ++ [Ev.storeResult updatedCacheKey])),
      safeToIncrementallyBundle := safeFlag,
      stores := [(updatedCacheKey,
        { bundleGraph := g3, bundlerHash := some bundlerHash, changedAssets := [] })],
      finalState := st3 }

/-- Cache-miss path of BundlerRunner.bundle: the incremental-reuse
decision followed by the phased algorithm. -/
def bundleFull (env : Env) (inp : BundleInput) (st0 : RunnerState)
    (bundlerHash : String) (preTrace : List Ev) : RunOut :=
  let f := fetchPrevious env inp
  let safeFlag := decideSafeFlag inp f.1 bundlerHash
  match runPhase env inp f.1 safeFlag with
  | (.error e, pEvs) =>
    { result := .error e, trace := preTrace ++ f.2 ++ pEvs,
      safeToIncrementallyBundle := safeFlag, stores := [], finalState := st0 }
  | (.ok g, pEvs) =>
    postPhase env inp st0 bundlerHash safeFlag g (preTrace ++ f.2 ++ pEvs)

/-- Operation BundlerRunner.bundle: load all configs, compute the probing
cacheKey and the bundlerHash, short-circuit on a resident-cache hit
(getPreviousResult), then on a durable-cache hit (deserialize, store the
graph with empty changedAssets and no bundlerHash, and return the bare
graph), and otherwise run the cache-miss path. -/
def bundleRun (env : Env) (inp : BundleInput) : RunOut :=
  let st0 := preState env
  let cfgEvs := (loadConfigs env initialState).2
  let keys := probeKeys env inp.assetGraphHash
  let cacheKey := keys.1
  let bundlerHash := keys.2
  let preTrace := cfgEvs ++ [Ev.getPreviousResult cacheKey]
  match env.getPreviousResult cacheKey with
  | some prev =>
    { result := .ok (.previousResult prev), trace := preTrace,
      safeToIncrementallyBundle := inp.safeToIncrementallyBundle,
      stores := [], finalState := st0 }
  | none =>
    if env.shouldDisableCache then
      bundleFull env inp st0 bundlerHash preTrace
    else
      match env.cacheGetBuffer cacheKey with
      | some bytes =>
        let g := env.deserialize bytes
        { result := .ok (.bareGraph g),
          trace := preTrace ++ [Ev.durableLookup cacheKey, Ev.storeResult cacheKey],
          safeToIncrementallyBundle := inp.safeToIncrementallyBundle,
          stores := [(cacheKey,
            { bundleGraph := g, bundlerHash := none, changedAssets := [] })],
          finalState := st0 }
      | none =>
        bundleFull env inp st0 bundlerHash (preTrace ++ [Ev.durableLookup cacheKey])

/-! ## The build pipeline -/

/-- Environment of one ParcelBuildRequest run: the asset-graph construction
result (an external collaborator, per its boundary contract), the
bundle-graph environment, the bundle-writing step, and the cancellation
signal. -/
structure PipelineEnv where
  benv : Env
  assetGraphHash : String
  safeToIncrementallyBundle : Bool
  previousAssetGraphHash : Option String
  changedAssets : List (String × Asset)
  assetRequests : List String
  writeBundlesFn : BundleGraphM → Except BuildError (List (String × String))
  signalAborted : Bool

/-- Pipeline-level errors: a propagated build error, a JS TypeError from
destructuring a malformed bundle-graph result, or the abort error thrown
by the cancellation assertion. -/
inductive PipelineError
  | build (e : BuildError)
  | typeError (message : String)
  | abortError
deriving DecidableEq, Repr

/-- Result record of a ParcelBuildRequest run. -/
structure PipelineResult where
  bundleGraph : BundleGraphM
  bundleInfo : List (String × String)
  changedAssets : List (String × Asset)
  assetRequests : List String
deriving DecidableEq, Repr

/-- Outcome of one pipeline run: result or error, plus the event trace. -/
structure PipelineOut where
  result : Except PipelineError PipelineResult
  trace : List Ev
deriving DecidableEq, Repr

/-- Steps 2 (merge) through 4 of the pipeline, after the bundle-graph
result has been destructured: merge the changed runtime assets into the
changed-asset map, run bundle writing, and then check the single
cooperative cancellation signal.  Modelled from the spec for the
assertSignalNotAborted helper (utils.js, not part of the source under
review): it throws a build-abort error when the signal is aborted. -/
def pipelineFinish (p : PipelineEnv) (g : BundleGraphM)
    (changedRuntimeAssets : List (String × Asset)) (tr : List Ev) : PipelineOut :=
  let merged := changedRuntimeAssets.foldl (fun m ca => mapSet m ca.1 ca.2) p.changedAssets
  match p.writeBundlesFn g with
  | .error e => { result := .error (.build e), trace := tr ++ [Ev.writeBundles] }
  | .ok info =>
    let tr2 := tr ++ [Ev.writeBundles, Ev.checkAbortSignal]
    if p.signalAborted then { result := .error .abortError, trace := tr2 }
    else
      let res : PipelineResult :=
        { bundleGraph := g, bundleInfo := info,
          changedAssets := merged, assetRequests := p.assetRequests }
      { result := .ok res, trace := tr2 }

/-- Input handed by the pipeline to bundle-graph construction: the current
asset graph, the previous asset-graph hash and the changed assets obtained
from asset-graph construction. -/
def pipelineInput (p : PipelineEnv) : BundleInput :=
  { assetGraphHash := p.assetGraphHash,
    safeToIncrementallyBundle := p.safeToIncrementallyBundle,
    previousAssetGraphHash := p.previousAssetGraphHash,
    changedAssets := p.changedAssets }

/-- Operation run of ParcelBuildRequest: asset-graph construction, then
bundle-graph construction, then the destructuring of its result (iterating
the changedAssets of a bare deserialized graph throws a TypeError), then
bundle writing, then the single cancellation check. -/
def pipelineRun (p : PipelineEnv) : PipelineOut :=
  let bg := bundleRun p.benv (pipelineInput p)
  let tr0 := Ev.assetGraphBuild :: bg.trace
  match bg.result with
  | .error e => { result := .error (.build e), trace := tr0 }
  | .ok ret =>
    match ret with
    | .bareGraph _ =>
      { result := .error (.typeError "changedAssets is not iterable"), trace := tr0 }
    | .result g _ ca => pipelineFinish p g ca tr0
    | .previousResult r => pipelineFinish p r.bundleGraph r.changedAssets tr0

/-- Classifier for updateAsset events, used to count the incremental
patches applied during a computation. -/
def Ev.isUpdateAsset : Ev → Bool
  | .updateAsset _ => true
  | _ => false

/-- Event shapes that a bundle-graph computation can emit; a
bundlerOptimize event only in production mode, and never a pipeline-level
event (assetGraphBuild, writeBundles, checkAbortSignal). -/
def Ev.engineShape (env : Env) (e : Ev) : Prop :=
  (∃ n, e = Ev.loadConfig n) ∨ (∃ k, e = Ev.runDevDep k) ∨
  (∃ k, e = Ev.getPreviousResult k) ∨ (∃ k, e = Ev.durableLookup k) ∨
  (∃ s, e = Ev.getRequestResult s) ∨ (∃ a, e = Ev.updateAsset a) ∨
  e = Ev.bundlerBundle ∨ (e = Ev.bundlerOptimize ∧ env.mode = "production") ∨
  (∃ n, e = Ev.namerInvoke n) ∨ e = Ev.applyRuntimes ∨ (∃ k, e = Ev.storeResult k)

/-- Environment identical to the given one except that every
getRequestResult fetch fails (models a prior result that was evicted or
errored, whichever id is asked for). -/
def envNoFetch (env : Env) : Env := { env with getRequestResult := fun _ => none }

/-! ## Concrete fixtures for witnesses and counterexamples -/

/-- A bundle before naming. -/
def testBundle : Bundle :=
  { name := none, displayName := none, hashReference := "@@HASH",
    distDir := "dist", isInline := false }

/-- A changed asset. -/
def testAsset : Asset := { id := "a1" }

/-- Namer returning the fixed name out for every bundle. -/
def outNamer : NamerSpec :=
  { name := "namer", resolveFrom := "root", configHash := "cn",
    configDevDeps := [], run := fun _ => .ok (some "out") }

/-- Namer returning null for every bundle. -/
def nullNamer : NamerSpec :=
  { name := "nullNamer", resolveFrom := "root", configHash := "c0",
    configDevDeps := [], run := fun _ => .ok none }

/-- Baseline environment: one bundler producing one bundle, one namer
returning the name out, no runtimes, cold caches, constant collaborator
hashes. -/
def baseEnv : Env :=
  { parcelVersion := "v"
    mode := "development"
    shouldDisableCache := true
    bundler := { name := "bundler", resolveFrom := "root", configHash := "cb",
                 configDevDeps := [] }
    bundleFn := fun g => .ok { g with bundles := [testBundle] }
    optimizeFn := fun g => .ok g
    namers := [outNamer]
    runtimes := []
    getPreviousResult := fun _ => none
    cacheGetBuffer := fun _ => none
    deserialize := fun bytes =>
      { origin := .deserialized bytes, bundles := [], updatedAssets := [] }
    getRequestResult := fun _ => none
    devDepHash := fun _ => "d"
    applyRuntimesFn := fun g => (g, [], [])
    invalidationHashFn := fun _ => "i"
    hashString := fun _ => "H" }

/-- Baseline input: a cold build with no predecessor. -/
def baseInput : BundleInput :=
  { assetGraphHash := "ag", safeToIncrementallyBundle := false,
    previousAssetGraphHash := none, changedAssets := [] }

/-- A working graph holding one unnamed bundle. -/
def oneBundleGraph : BundleGraphM :=
  { origin := .fresh "ag", bundles := [testBundle], updatedAssets := [] }

/-- A working graph holding two unnamed bundles (the second inline), which
the fixed-name namer names identically. -/
def twoBundleGraph : BundleGraphM :=
  { origin := .fresh "ag",
    bundles := [testBundle, { testBundle with isInline := true }],
    updatedAssets := [] }

/-- A prior computation's stored result whose bundlerHash matches the one
the baseline environment computes. -/
def matchingPrevResult : StoredResult :=
  { bundleGraph := { origin := .fresh "old", bundles := [testBundle], updatedAssets := [] },
    bundlerHash := some "H", changedAssets := [] }

/-- A prior computation's stored result with a different bundlerHash. -/
def mismatchPrevResult : StoredResult :=
  { bundleGraph := { origin := .fresh "old", bundles := [testBundle], updatedAssets := [] },
    bundlerHash := some "X", changedAssets := [] }

/-- Input for a warm incremental build: flag set, predecessor hash p, one
changed asset. -/
def warmInput : BundleInput :=
  { assetGraphHash := "ag", safeToIncrementallyBundle := true,
    previousAssetGraphHash := some "p", changedAssets := [("a1", testAsset)] }

/-- Baseline environment whose request substrate holds the matching prior
result under the predecessor's request id. -/
def warmEnv : Env :=
  { baseEnv with getRequestResult := fun id =>
      if id = "BundleGraph:p" then some matchingPrevResult else none }

/-- Production environment with a resident-cache hit. -/
def prodHitEnv : Env :=
  { baseEnv with
    mode := "production"
    getPreviousResult := fun _ => some matchingPrevResult }

/-- Production environment on the cold full path. -/
def prodMissEnv : Env := { baseEnv with mode := "production" }

/-- Environment on the cache-miss path whose predecessor's stored result
carries a different bundlerHash. -/
def warmMismatchEnv : Env :=
  { baseEnv with getRequestResult := fun id =>
      if id = "BundleGraph:p" then some mismatchPrevResult else none }

/-- Environment with a resident-cache hit while the predecessor's stored
result carries a different bundlerHash. -/
def residentMismatchEnv : Env :=
  { baseEnv with
    getPreviousResult := fun _ => some matchingPrevResult
    getRequestResult := fun id =>
      if id = "BundleGraph:p" then some mismatchPrevResult else none }

/-- Environment with a durable-cache hit (cache enabled, bytes present). -/
def durableHitEnv : Env :=
  { baseEnv with
    shouldDisableCache := false
    cacheGetBuffer := fun _ => some "bytes" }

/-- The graph that the baseline cold build produces: one bundle named out. -/
def outGraph : BundleGraphM :=
  { origin := .fresh "ag"
    bundles := [namedBundle testBundle "out"]
    updatedAssets := [] }

/-- The graph deserialized from the durable cache bytes. -/
def deserializedGraph : BundleGraphM :=
  { origin := .deserialized "bytes", bundles := [], updatedAssets := [] }

/-- A stored result of the shape produced by the durable-cache-hit path:
no bundlerHash, empty changedAssets. -/
def noHashPrevResult : StoredResult :=
  { bundleGraph := { origin := .deserialized "bytes", bundles := [], updatedAssets := [] },
    bundlerHash := none, changedAssets := [] }

/-- Environment whose predecessor result was restored from the durable
cache (stored without a bundlerHash). -/
def restoredEnv : Env :=
  { baseEnv with getRequestResult := fun id =>
      if id = "BundleGraph:p" then some noHashPrevResult else none }

/-- Environment whose only namer returns null for every bundle. -/
def nullEnv : Env := { baseEnv with namers := [nullNamer] }

/-- Production environment with a durable-cache hit. -/
def prodDurableEnv : Env := { durableHitEnv with mode := "production" }

/-- Production environment for an eligible warm incremental build. -/
def prodWarmEnv : Env := { warmEnv with mode := "production" }

/-- The graph the warm incremental build produces: the prior graph with
the changed asset patched and the bundle renamed. -/
def warmOutGraph : BundleGraphM :=
  { origin := .fresh "old"
    bundles := [namedBundle testBundle "out"]
    updatedAssets := ["a1"] }

/-- Baseline pipeline environment over the baseline bundle environment:
bundle writing succeeds, signal not aborted. -/
def basePipelineEnv : PipelineEnv :=
  { benv := baseEnv
    assetGraphHash := "ag"
    safeToIncrementallyBundle := false
    previousAssetGraphHash := none
    changedAssets := []
    assetRequests := []
    writeBundlesFn := fun _ => .ok [("out", "dist/out")]
    signalAborted := false }

/-- Pipeline environment whose cancellation signal is aborted. -/
def abortedPipelineEnv : PipelineEnv :=
  { basePipelineEnv with signalAborted := true }

/-! ## Infrastructure lemmas -/

theorem uniqueJsAux_length (seen : List String) (l : List String) :
    (uniqueJsAux seen l).length ≤ l.length := by
  induction l generalizing seen with
  | nil => simp [uniqueJsAux]
  | cons x xs ih =>
    simp only [uniqueJsAux]
    split
    · exact Nat.le_succ_of_le (ih seen)
    · simpa using Nat.succ_le_succ (ih (x :: seen))

theorem uniqueJsAux_eq_self (seen : List String) (l : List String)
    (h : uniqueJsAux seen l = l) : l.Nodup ∧ ∀ x ∈ l, x ∉ seen := by
  induction l generalizing seen with
  | nil => simp
  | cons x xs ih =>
    simp only [uniqueJsAux] at h
    split at h
    · exfalso
      have hlen := congrArg List.length h
      have := uniqueJsAux_length seen xs
      simp only [List.length_cons] at hlen
      omega
    · rename_i hseen
      have hx : uniqueJsAux (x :: seen) xs = xs := by
        simpa using congrArg List.tail h
      obtain ⟨hnd, hmem⟩ := ih (x :: seen) hx
      refine ⟨List.nodup_cons.mpr ⟨fun hxin => ?_, hnd⟩, ?_⟩
      · exact (hmem x hxin) (List.mem_cons_self x seen)
      · intro y hy
        rcases List.mem_cons.mp hy with rfl | hy'
        · intro hcon
          exact hseen (List.elem_iff.mpr hcon)
        · intro hcon
          exact (hmem y hy') (List.mem_cons_of_mem _ hcon)

theorem uniqueJs_eq_self_nodup (l : List String) (h : l = uniqueJs l) :
    l.Nodup :=
  (uniqueJsAux_eq_self [] l h.symm).1

theorem mapSet_keys_iff {α : Type} (m : List (String × α)) (k : String) (v : α)
    (k' : String) :
    k' ∈ (mapSet m k v).map Prod.fst ↔ (k' ∈ m.map Prod.fst ∨ k' = k) := by
  unfold mapSet
  split
  · rename_i h
    have hkeys : (m.map (fun p => if p.1 == k then (k, v) else p)).map Prod.fst
        = m.map Prod.fst := by
      rw [List.map_map]
      apply List.map_congr_left
      intro p hp
      by_cases hc : p.1 = k
      · simp [Function.comp, hc]
      · simp [Function.comp, hc]
    rw [hkeys]
    constructor
    · exact Or.inl
    · rintro (h' | rfl)
      · exact h'
      · rcases List.any_eq_true.mp h with ⟨p, hp, hpk⟩
        have hpk' : p.1 = k' := by simpa using hpk
        exact List.mem_map.mpr ⟨p, hp, hpk'⟩
  · simp

theorem mapSet_keys_mem {α : Type} (m : List (String × α)) (k : String) (v : α) :
    k ∈ (mapSet m k v).map Prod.fst :=
  (mapSet_keys_iff m k v k).mpr (Or.inr rfl)

theorem mapSet_keys_mono {α : Type} (m : List (String × α)) (k k' : String) (v : α)
    (h : k' ∈ m.map Prod.fst) : k' ∈ (mapSet m k v).map Prod.fst :=
  (mapSet_keys_iff m k v k').mpr (Or.inl h)

theorem runDevDepRequest_key_mem (st : RunnerState) (dd : DevDep) (h : String) :
    devDepKey dd ∈ ((runDevDepRequest st dd h).1).devDepRequests.map Prod.fst := by
  unfold runDevDepRequest
  exact mapSet_keys_mem _ _ _

theorem runDevDepRequest_keys_mono (st : RunnerState) (dd : DevDep) (h : String)
    (k : String) (hk : k ∈ st.devDepRequests.map Prod.fst) :
    k ∈ ((runDevDepRequest st dd h).1).devDepRequests.map Prod.fst := by
  unfold runDevDepRequest
  exact mapSet_keys_mono _ _ _ _ hk

theorem runDevDeps_keys_mono (f : DevDep → String) (st : RunnerState)
    (l : List DevDep) (k : String) (hk : k ∈ st.devDepRequests.map Prod.fst) :
    k ∈ ((runDevDeps f st l).1).devDepRequests.map Prod.fst := by
  induction l generalizing st with
  | nil => simpa [runDevDeps] using hk
  | cons dd rest ih =>
    simp only [runDevDeps]
    exact ih _ (runDevDepRequest_keys_mono st dd (f dd) k hk)

theorem runDevDeps_events (f : DevDep → String) (st : RunnerState)
    (l : List DevDep) (e : Ev) (h : e ∈ (runDevDeps f st l).2) :
    ∃ k, e = Ev.runDevDep k := by
  induction l generalizing st with
  | nil => simp [runDevDeps] at h
  | cons dd rest ih =>
    simp only [runDevDeps, List.mem_cons] at h
    rcases h with rfl | h
    · exact ⟨devDepKey dd, rfl⟩
    · exact ih _ h

theorem loadConfig_events (f : DevDep → String) (st : RunnerState) (p : PluginSpec)
    (e : Ev) (h : e ∈ (loadConfig f st p).2) :
    (∃ n, e = Ev.loadConfig n) ∨ (∃ k, e = Ev.runDevDep k) := by
  simp only [loadConfig, List.mem_cons] at h
  rcases h with rfl | h
  · exact Or.inl ⟨p.name, rfl⟩
  · exact Or.inr (runDevDeps_events f st p.configDevDeps e h)

theorem loadConfigList_events (f : DevDep → String) (st : RunnerState)
    (ps : List PluginSpec) (e : Ev) (h : e ∈ (loadConfigList f st ps).2) :
    (∃ n, e = Ev.loadConfig n) ∨ (∃ k, e = Ev.runDevDep k) := by
  induction ps generalizing st with
  | nil => simp [loadConfigList] at h
  | cons p rest ih =>
    simp only [loadConfigList, List.mem_append] at h
    rcases h with h | h
    · exact loadConfig_events f st p e h
    · exact ih _ h

theorem loadConfigs_events (env : Env) (st : RunnerState) (e : Ev)
    (h : e ∈ (loadConfigs env st).2) :
    (∃ n, e = Ev.loadConfig n) ∨ (∃ k, e = Ev.runDevDep k) :=
  loadConfigList_events _ _ _ _ h

theorem nameBundle_events (namers : List NamerSpec) (b : Bundle) (e : Ev)
    (h : e ∈ (nameBundle namers b).2) : ∃ n, e = Ev.namerInvoke n := by
  induction namers with
  | nil => simp [nameBundle] at h
  | cons nm rest ih =>
    simp only [nameBundle] at h
    rcases hr : nm.run b with msg | x
    · rw [hr] at h
      simp only [List.mem_singleton] at h
      exact ⟨nm.name, h⟩
    · cases x with
      | none =>
        rw [hr] at h
        simp only [List.mem_cons] at h
        rcases h with rfl | h
        · exact ⟨nm.name, rfl⟩
        · exact ih h
      | some v =>
        rw [hr] at h
        simp only [List.mem_singleton] at h
        exact ⟨nm.name, h⟩

theorem nameAllBundles_events (namers : List NamerSpec) (bs : List Bundle) (e : Ev)
    (h : e ∈ (nameAllBundles namers bs).2) : ∃ n, e = Ev.namerInvoke n := by
  induction bs with
  | nil => simp [nameAllBundles] at h
  | cons b rest ih =>
    simp only [nameAllBundles] at h
    split at h
    · rename_i heq
      have : e ∈ (nameBundle namers b).2 := by
        rw [heq]; exact h
      exact nameBundle_events namers b e this
    · rename_i b' evs heq
      split at h
      · rename_i heq2
        simp only [List.mem_append] at h
        rcases h with h | h
        · exact nameBundle_events namers b e (by rw [heq]; exact h)
        · exact ih (by rw [heq2]; exact h)
      · rename_i heq2
        simp only [List.mem_append] at h
        rcases h with h | h
        · exact nameBundle_events namers b e (by rw [heq]; exact h)
        · exact ih (by rw [heq2]; exact h)

theorem nameBundles_events (env : Env) (st : RunnerState) (g : BundleGraphM)
    (e : Ev) (h : e ∈ (nameBundles env st g).2) :
    (∃ n, e = Ev.namerInvoke n) ∨ (∃ k, e = Ev.runDevDep k) := by
  simp only [nameBundles] at h
  split at h
  · rename_i heq
    exact Or.inl (nameAllBundles_events env.namers g.bundles e (by rw [heq]; exact h))
  · rename_i named evs heq
    split at h <;>
    · simp only [List.mem_append] at h
      rcases h with h | h
      · exact Or.inl (nameAllBundles_events env.namers g.bundles e (by rw [heq]; exact h))
      · exact Or.inr (runDevDeps_events _ _ _ e h)

theorem runApplyRuntimes_events (env : Env) (st : RunnerState) (g : BundleGraphM)
    (e : Ev) (h : e ∈ (runApplyRuntimes env st g).2.2.2) :
    e = Ev.applyRuntimes ∨ (∃ k, e = Ev.runDevDep k) := by
  simp only [runApplyRuntimes, List.mem_cons] at h
  rcases h with rfl | h
  · exact Or.inl rfl
  · exact Or.inr (runDevDeps_events _ _ _ e h)

theorem postPhase_flag (env : Env) (inp : BundleInput) (st0 : RunnerState)
    (bh : String) (safeFlag : Bool) (g : BundleGraphM) (tr : List Ev) :
    (postPhase env inp st0 bh safeFlag g tr).safeToIncrementallyBundle = safeFlag := by
  simp only [postPhase]
  split <;> rfl

theorem bundleFull_flag (env : Env) (inp : BundleInput) (st0 : RunnerState)
    (bh : String) (tr : List Ev) :
    (bundleFull env inp st0 bh tr).safeToIncrementallyBundle
      = decideSafeFlag inp (fetchPrevious env inp).1 bh := by
  simp only [bundleFull]
  split
  · rfl
  · exact postPhase_flag _ _ _ _ _ _ _

theorem bundleRun_resident (env : Env) (inp : BundleInput) (prev : StoredResult)
    (h : env.getPreviousResult (probeKeys env inp.assetGraphHash).1 = some prev) :
    bundleRun env inp =
      { result := .ok (.previousResult prev),
        trace := (loadConfigs env initialState).2 ++
          [Ev.getPreviousResult (probeKeys env inp.assetGraphHash).1],
        safeToIncrementallyBundle := inp.safeToIncrementallyBundle,
        stores := [], finalState := preState env } := by
  simp only [bundleRun, h]

theorem bundleRun_missDisabled (env : Env) (inp : BundleInput)
    (h1 : env.getPreviousResult (probeKeys env inp.assetGraphHash).1 = none)
    (h2 : env.shouldDisableCache = true) :
    bundleRun env inp = bundleFull env inp (preState env)
      (probeKeys env inp.assetGraphHash).2
      ((loadConfigs env initialState).2 ++
        [Ev.getPreviousResult (probeKeys env inp.assetGraphHash).1]) := by
  simp only [bundleRun, h1, h2, if_true]

theorem bundleRun_missDurable (env : Env) (inp : BundleInput)
    (h1 : env.getPreviousResult (probeKeys env inp.assetGraphHash).1 = none)
    (h2 : env.shouldDisableCache = false)
    (h3 : env.cacheGetBuffer (probeKeys env inp.assetGraphHash).1 = none) :
    bundleRun env inp = bundleFull env inp (preState env)
      (probeKeys env inp.assetGraphHash).2
      ((loadConfigs env initialState).2 ++
        [Ev.getPreviousResult (probeKeys env inp.assetGraphHash).1] ++
        [Ev.durableLookup (probeKeys env inp.assetGraphHash).1]) := by
  simp only [bundleRun, h1, h2, h3, Bool.false_eq_true, if_false, List.append_assoc]

theorem bundleRun_durableHit (env : Env) (inp : BundleInput) (bytes : String)
    (h1 : env.getPreviousResult (probeKeys env inp.assetGraphHash).1 = none)
    (h2 : env.shouldDisableCache = false)
    (h3 : env.cacheGetBuffer (probeKeys env inp.assetGraphHash).1 = some bytes) :
    bundleRun env inp =
      { result := .ok (.bareGraph (env.deserialize bytes)),
        trace := (loadConfigs env initialState).2 ++
          [Ev.getPreviousResult (probeKeys env inp.assetGraphHash).1] ++
          [Ev.durableLookup (probeKeys env inp.assetGraphHash).1,
           Ev.storeResult (probeKeys env inp.assetGraphHash).1],
        safeToIncrementallyBundle := inp.safeToIncrementallyBundle,
        stores := [((probeKeys env inp.assetGraphHash).1,
          { bundleGraph := env.deserialize bytes, bundlerHash := none,
            changedAssets := [] })],
        finalState := preState env } := by
  simp only [bundleRun, h1, h2, h3, Bool.false_eq_true, if_false, List.append_assoc]

theorem fetchPrevious_events (env : Env) (inp : BundleInput) (e : Ev)
    (h : e ∈ (fetchPrevious env inp).2) : ∃ s, e = Ev.getRequestResult s := by
  simp only [fetchPrevious] at h
  split at h
  · split at h
    · simp only [List.mem_singleton] at h
      exact ⟨_, h⟩
    · simp at h
  · simp at h

theorem runPhase_events (env : Env) (inp : BundleInput)
    (fetched : Option StoredResult) (f : Bool) (e : Ev)
    (h : e ∈ (runPhase env inp fetched f).2) :
    (∃ a, e = Ev.updateAsset a) ∨ e = Ev.bundlerBundle ∨
      (e = Ev.bundlerOptimize ∧ env.mode = "production") := by
  simp only [runPhase] at h
  split at h
  · split at h
    · rcases List.mem_map.mp h with ⟨ca, _, rfl⟩
      exact Or.inl ⟨_, rfl⟩
    · simp at h
  · split at h
    · simp only [List.mem_singleton] at h
      exact Or.inr (Or.inl h)
    · split at h
      · rename_i hmode
        split at h <;>
        · simp only [List.mem_cons, List.mem_singleton, List.not_mem_nil, or_false] at h
          rcases h with rfl | rfl
          · exact Or.inr (Or.inl rfl)
          · exact Or.inr (Or.inr ⟨rfl, hmode⟩)
      · simp only [List.mem_singleton] at h
        exact Or.inr (Or.inl h)

theorem runPhase_no_update_of_false (env : Env) (inp : BundleInput)
    (fetched : Option StoredResult) (e : Ev)
    (h : e ∈ (runPhase env inp fetched false).2) :
    e = Ev.bundlerBundle ∨ e = Ev.bundlerOptimize := by
  rcases runPhase_events env inp fetched false e h with ⟨a, rfl⟩ | h | ⟨rfl, _⟩
  · simp only [runPhase, Bool.false_eq_true, if_false] at h
    split at h
    · simp only [List.mem_singleton] at h
      cases h
    · split at h
      · split at h <;> simp_all
      · simp_all
  · exact Or.inl h
  · exact Or.inr rfl

theorem postPhase_trace_rest (env : Env) (inp : BundleInput) (st0 : RunnerState)
    (bh : String) (safeFlag : Bool) (g : BundleGraphM) (tr : List Ev) :
    ∃ rest, (postPhase env inp st0 bh safeFlag g tr).trace = tr ++ rest ∧
      ∀ e ∈ rest, (∃ k, e = Ev.runDevDep k) ∨ (∃ n, e = Ev.namerInvoke n) ∨
        e = Ev.applyRuntimes ∨ (∃ k, e = Ev.storeResult k) := by
  simp only [postPhase]
  split
  · rename_i e nEvs heq
    refine ⟨_, rfl, ?_⟩
    intro ev hev
    rcases List.mem_cons.mp hev with rfl | hev
    · exact Or.inl ⟨_, rfl⟩
    · rcases nameBundles_events env _ g ev (by rw [heq]; exact hev) with h | h
      · exact Or.inr (Or.inl h)
      · exact Or.inl h
  · rename_i g2 st2 nEvs heq
    refine ⟨_, rfl, ?_⟩
    intro ev hev
    rcases List.mem_cons.mp hev with rfl | hev
    · exact Or.inl ⟨_, rfl⟩
    · rcases List.mem_append.mp hev with hev | hev
      · rcases List.mem_append.mp hev with hev | hev
        · rcases nameBundles_events env _ g ev (by rw [heq]; exact hev) with h | h
          · exact Or.inr (Or.inl h)
          · exact Or.inl h
        · rcases runApplyRuntimes_events env st2 g2 ev hev with rfl | h
          · exact Or.inr (Or.inr (Or.inl rfl))
          · exact Or.inl h
      · simp only [List.mem_singleton] at hev
        subst hev
        exact Or.inr (Or.inr (Or.inr ⟨_, rfl⟩))

theorem postPhase_result_trace_irrel (env : Env) (inp : BundleInput)
    (st0 : RunnerState) (bh : String) (safeFlag : Bool) (g : BundleGraphM)
    (tr tr' : List Ev) :
    (postPhase env inp st0 bh safeFlag g tr).result
      = (postPhase env inp st0 bh safeFlag g tr').result := by
  simp only [postPhase]
  split <;> rfl

theorem postPhase_stores_trace_irrel (env : Env) (inp : BundleInput)
    (st0 : RunnerState) (bh : String) (safeFlag : Bool) (g : BundleGraphM)
    (tr tr' : List Ev) :
    (postPhase env inp st0 bh safeFlag g tr).stores
      = (postPhase env inp st0 bh safeFlag g tr').stores := by
  simp only [postPhase]
  split <;> rfl

theorem nameBundles_ok_graph (env : Env) (st : RunnerState) (g : BundleGraphM)
    (g2 : BundleGraphM) (st2 : RunnerState) (evs : List Ev)
    (h : nameBundles env st g = (.ok (g2, st2), evs)) :
    g2.origin = g.origin ∧ g2.updatedAssets = g.updatedAssets := by
  simp only [nameBundles] at h
  split at h
  · simp only [Prod.mk.injEq] at h
    exact absurd h.1 (by simp)
  · split at h
    · simp only [Prod.mk.injEq, Except.ok.injEq] at h
      obtain ⟨⟨hg, _⟩, _⟩ := h
      rw [← hg]
      exact ⟨rfl, rfl⟩
    · simp only [Prod.mk.injEq] at h
      exact absurd h.1 (by simp)

theorem nameBundles_keys_mono (env : Env) (st : RunnerState) (g : BundleGraphM)
    (g2 : BundleGraphM) (st2 : RunnerState) (evs : List Ev) (k : String)
    (h : nameBundles env st g = (.ok (g2, st2), evs))
    (hk : k ∈ st.devDepRequests.map Prod.fst) :
    k ∈ st2.devDepRequests.map Prod.fst := by
  simp only [nameBundles] at h
  split at h
  · simp only [Prod.mk.injEq] at h
    exact absurd h.1 (by simp)
  · split at h
    · simp only [Prod.mk.injEq, Except.ok.injEq] at h
      obtain ⟨⟨_, hst⟩, _⟩ := h
      rw [← hst]
      exact runDevDeps_keys_mono _ _ _ _ hk
    · simp only [Prod.mk.injEq] at h
      exact absurd h.1 (by simp)

theorem foldl_updateAsset (l : List (String × Asset)) (g : BundleGraphM) :
    (l.foldl (fun gr ca => gr.updateAsset ca.2) g).origin = g.origin ∧
    (l.foldl (fun gr ca => gr.updateAsset ca.2) g).bundles = g.bundles ∧
    (l.foldl (fun gr ca => gr.updateAsset ca.2) g).updatedAssets
      = g.updatedAssets ++ l.map (fun ca => ca.2.id) := by
  induction l generalizing g with
  | nil => simp
  | cons ca rest ih =>
    simp only [List.foldl_cons, List.map_cons]
    refine ⟨(ih _).1, (ih _).2.1, ?_⟩
    rw [(ih _).2.2]
    simp [BundleGraphM.updateAsset, List.append_assoc]

theorem bundleFull_incremental (env : Env) (inp : BundleInput) (st0 : RunnerState)
    (bh : String) (preTr : List Ev) (ph : String) (prev : StoredResult)
    (hsafe : inp.safeToIncrementallyBundle = true)
    (hprev : inp.previousAssetGraphHash = some ph)
    (hfetch : env.getRequestResult ("BundleGraph:" ++ ph) = some prev)
    (hbh : prev.bundlerHash = some bh) :
    bundleFull env inp st0 bh preTr =
      postPhase env inp st0 bh true
        (inp.changedAssets.foldl (fun g ca => g.updateAsset ca.2) prev.bundleGraph)
        (preTr ++ [Ev.getRequestResult ("BundleGraph:" ++ ph)] ++
          inp.changedAssets.map (fun ca => Ev.updateAsset ca.2.id)) := by
  simp only [bundleFull, fetchPrevious, hprev, hsafe, if_true, hfetch,
    decideSafeFlag, hbh, if_pos, runPhase]

theorem bundleFull_fresh (env : Env) (inp : BundleInput) (st0 : RunnerState)
    (bh : String) (preTr : List Ev) (g1 : BundleGraphM)
    (hflag : decideSafeFlag inp (fetchPrevious env inp).1 bh = false)
    (hbf : env.bundleFn (BundleGraphM.fromAssetGraph inp.assetGraphHash) = .ok g1)
    (hmode : env.mode ≠ "production") :
    bundleFull env inp st0 bh preTr =
      postPhase env inp st0 bh false g1
        (preTr ++ (fetchPrevious env inp).2 ++ [Ev.bundlerBundle]) := by
  simp only [bundleFull, hflag, runPhase, Bool.false_eq_true, if_false, hbf,
    if_neg hmode]

theorem bundleRun_miss_exists (env : Env) (inp : BundleInput)
    (h1 : env.getPreviousResult (probeKeys env inp.assetGraphHash).1 = none)
    (h2 : env.shouldDisableCache = true ∨
      env.cacheGetBuffer (probeKeys env inp.assetGraphHash).1 = none) :
    ∃ preTr, bundleRun env inp = bundleFull env inp (preState env)
        (probeKeys env inp.assetGraphHash).2 preTr ∧
      ∀ e ∈ preTr, (∃ n, e = Ev.loadConfig n) ∨ (∃ k, e = Ev.runDevDep k) ∨
        (∃ k, e = Ev.getPreviousResult k) ∨ (∃ k, e = Ev.durableLookup k) := by
  rcases hdis : env.shouldDisableCache with _ | _
  · rcases h2 with hd | hbuf
    · rw [hdis] at hd
      cases hd
    · refine ⟨_, bundleRun_missDurable env inp h1 hdis hbuf, ?_⟩
      intro e he
      rcases List.mem_append.mp he with he | he
      · rcases List.mem_append.mp he with he | he
        · rcases loadConfigs_events env _ e he with h | h
          · exact Or.inl h
          · exact Or.inr (Or.inl h)
        · simp only [List.mem_singleton] at he
          exact Or.inr (Or.inr (Or.inl ⟨_, he⟩))
      · simp only [List.mem_singleton] at he
        exact Or.inr (Or.inr (Or.inr ⟨_, he⟩))
  · refine ⟨_, bundleRun_missDisabled env inp h1 hdis, ?_⟩
    intro e he
    rcases List.mem_append.mp he with he | he
    · rcases loadConfigs_events env _ e he with h | h
      · exact Or.inl h
      · exact Or.inr (Or.inl h)
    · simp only [List.mem_singleton] at he
      exact Or.inr (Or.inr (Or.inl ⟨_, he⟩))

theorem preTrace_events (env : Env) (k : String) (e : Ev)
    (h : e ∈ (loadConfigs env initialState).2 ++ [Ev.getPreviousResult k]) :
    Ev.engineShape env e := by
  rcases List.mem_append.mp h with h | h
  · rcases loadConfigs_events env _ e h with h | h
    · exact Or.inl h
    · exact Or.inr (Or.inl h)
  · simp only [List.mem_singleton] at h
    exact Or.inr (Or.inr (Or.inl ⟨k, h⟩))

theorem bundleFull_events (env : Env) (inp : BundleInput) (st0 : RunnerState)
    (bh : String) (preTr : List Ev) (e : Ev)
    (h : e ∈ (bundleFull env inp st0 bh preTr).trace) :
    e ∈ preTr ∨ Ev.engineShape env e := by
  simp only [bundleFull] at h
  split at h
  · rename_i err pEvs heq
    simp only [List.append_assoc, List.mem_append] at h
    rcases h with h | h | h
    · exact Or.inl h
    · exact Or.inr (Or.inr (Or.inr (Or.inr (Or.inr
        (Or.inl (fetchPrevious_events env inp e h))))))
    · have hin : e ∈ (runPhase env inp (fetchPrevious env inp).1
          (decideSafeFlag inp (fetchPrevious env inp).1 bh)).2 := by
        rw [heq]; exact h
      rcases runPhase_events _ _ _ _ e hin with h' | h' | h'
      · exact Or.inr (Or.inr (Or.inr (Or.inr (Or.inr (Or.inr (Or.inl h'))))))
      · exact Or.inr (Or.inr (Or.inr (Or.inr (Or.inr (Or.inr (Or.inr
          (Or.inl h')))))))
      · exact Or.inr (Or.inr (Or.inr (Or.inr (Or.inr (Or.inr (Or.inr
          (Or.inr (Or.inl h'))))))))
  · rename_i g pEvs heq
    obtain ⟨rest, htr, hrest⟩ := postPhase_trace_rest env inp st0 bh
      (decideSafeFlag inp (fetchPrevious env inp).1 bh) g
      (preTr ++ (fetchPrevious env inp).2 ++ pEvs)
    rw [htr] at h
    simp only [List.append_assoc, List.mem_append] at h
    rcases h with h | h | h | h
    · exact Or.inl h
    · exact Or.inr (Or.inr (Or.inr (Or.inr (Or.inr
        (Or.inl (fetchPrevious_events env inp e h))))))
    · have hin : e ∈ (runPhase env inp (fetchPrevious env inp).1
          (decideSafeFlag inp (fetchPrevious env inp).1 bh)).2 := by
        rw [heq]; exact h
      rcases runPhase_events _ _ _ _ e hin with h' | h' | h'
      · exact Or.inr (Or.inr (Or.inr (Or.inr (Or.inr (Or.inr (Or.inl h'))))))
      · exact Or.inr (Or.inr (Or.inr (Or.inr (Or.inr (Or.inr (Or.inr
          (Or.inl h')))))))
      · exact Or.inr (Or.inr (Or.inr (Or.inr (Or.inr (Or.inr (Or.inr
          (Or.inr (Or.inl h'))))))))
    · rcases hrest e h with h' | h' | h' | h'
      · exact Or.inr (Or.inr (Or.inl h'))
      · exact Or.inr (Or.inr (Or.inr (Or.inr (Or.inr (Or.inr (Or.inr
          (Or.inr (Or.inr (Or.inl h')))))))))
      · exact Or.inr (Or.inr (Or.inr (Or.inr (Or.inr (Or.inr (Or.inr
          (Or.inr (Or.inr (Or.inr (Or.inl h'))))))))))
      · exact Or.inr (Or.inr (Or.inr (Or.inr (Or.inr (Or.inr (Or.inr
          (Or.inr (Or.inr (Or.inr (Or.inr h'))))))))))

theorem bundleRun_events (env : Env) (inp : BundleInput) (e : Ev)
    (h : e ∈ (bundleRun env inp).trace) : Ev.engineShape env e := by
  simp only [bundleRun] at h
  split at h
  · exact preTrace_events env _ e h
  · split at h
    · rcases bundleFull_events env inp _ _ _ e h with h | h
      · exact preTrace_events env _ e h
      · exact h
    · split at h
      · rcases List.mem_append.mp h with h | h
        · exact preTrace_events env (probeKeys env inp.assetGraphHash).1 e h
        · simp only [List.mem_cons, List.mem_singleton, List.not_mem_nil,
            or_false] at h
          rcases h with rfl | rfl
          · exact Or.inr (Or.inr (Or.inr (Or.inl ⟨_, rfl⟩)))
          · exact Or.inr (Or.inr (Or.inr (Or.inr (Or.inr (Or.inr (Or.inr
              (Or.inr (Or.inr (Or.inr ⟨_, rfl⟩)))))))))
      · rcases bundleFull_events env inp _ _ _ e h with h | h
        · rcases List.mem_append.mp h with h | h
          · exact preTrace_events env (probeKeys env inp.assetGraphHash).1 e h
          · simp only [List.mem_singleton] at h
            subst h
            exact Or.inr (Or.inr (Or.inr (Or.inl ⟨_, rfl⟩)))
        · exact h

theorem nameBundle_skip_null (pre rest : List NamerSpec) (b : Bundle)
    (hpre : ∀ nm ∈ pre, nm.run b = .ok none) :
    nameBundle (pre ++ rest) b =
      ((nameBundle rest b).1,
       pre.map (fun nm => Ev.namerInvoke nm.name) ++ (nameBundle rest b).2) := by
  induction pre with
  | nil => simp
  | cons p ps ih =>
    have hp : p.run b = .ok none := hpre p (List.mem_cons_self p ps)
    simp only [List.cons_append, nameBundle, hp, List.append_eq]
    rw [ih (fun nm hm => hpre nm (List.mem_cons_of_mem _ hm))]
    simp

theorem nameBundle_all_null (namers : List NamerSpec) (b : Bundle)
    (h : ∀ nm ∈ namers, nm.run b = .ok none) :
    (nameBundle namers b).1 = .error (.plainError "Unable to name bundle") := by
  induction namers with
  | nil => rfl
  | cons nm rest ih =>
    have hnm : nm.run b = .ok none := h nm (List.mem_cons_self nm rest)
    have hrest := ih (fun x hx => h x (List.mem_cons_of_mem _ hx))
    simp only [nameBundle, hnm]
    exact hrest

theorem nameBundles_all_null (env : Env) (st : RunnerState) (g : BundleGraphM)
    (hne : g.bundles ≠ [])
    (h : ∀ nm ∈ env.namers, ∀ b ∈ g.bundles, nm.run b = .ok none) :
    (nameBundles env st g).1 = .error (.plainError "Unable to name bundle") := by
  rcases hb : g.bundles with _ | ⟨b0, rest⟩
  · exact absurd hb hne
  · have h0 : (nameBundle env.namers b0).1 = .error (.plainError "Unable to name bundle") :=
      nameBundle_all_null _ _ (fun nm hm => h nm hm b0 (hb ▸ List.mem_cons_self b0 rest))
    have hpair : nameBundle env.namers b0 =
        (.error (.plainError "Unable to name bundle"), (nameBundle env.namers b0).2) := by
      rw [← h0]
    rw [nameBundles, hb, nameAllBundles, hpair]

/-- Claim C3: getHashes returns cacheKey = hash(toolVersion ++ assetGraph
hash ++ concatenated config hashes ++ concatenated dev-dependency hashes ++
invalidation hash ++ mode) and bundlerHash = hash(toolVersion ++ bundler
plugin name ++ concatenated config hashes); the bundlerHash does not depend
on the asset graph content, the dev-dependency hashes, the invalidations or
the mode, and identical logical inputs always produce identical hashes
(also across processes, i.e. across any two environments that agree on the
hash function, the tool version, the bundler name and the config map). -/
theorem claim_C3 (env env' : Env) (st st' : RunnerState) (ag ag' : String)
    (hhash : env.hashString = env'.hashString)
    (hver : env.parcelVersion = env'.parcelVersion)
    (hname : env.bundler.name = env'.bundler.name)
    (hcfg : st.configs = st'.configs) :
    getHashes env st ag =
      (env.hashString (env.parcelVersion ++ ag ++
          String.join (st.configs.map (fun p => p.2)) ++
          String.join (st.devDepRequests.map (fun p => p.2)) ++
          env.invalidationHashFn st.invalidations ++ env.mode),
       env.hashString (env.parcelVersion ++ env.bundler.name ++
          String.join (st.configs.map (fun p => p.2)))) ∧
    (getHashes env st ag).2 = (getHashes env' st' ag').2 := by
  refine ⟨rfl, ?_⟩
  simp only [getHashes, hhash, hver, hname, hcfg]

/-- Witness for claim C3: concrete instantiation; the bundlerHash is
unchanged under a different asset graph hash, different dev-dependency
state, different invalidations and a different mode. -/
theorem claim_C3_witness :
    (getHashes baseEnv initialState "ag" =
      (baseEnv.hashString (baseEnv.parcelVersion ++ "ag" ++
          String.join (initialState.configs.map (fun p => p.2)) ++
          String.join (initialState.devDepRequests.map (fun p => p.2)) ++
          baseEnv.invalidationHashFn initialState.invalidations ++ baseEnv.mode),
       baseEnv.hashString (baseEnv.parcelVersion ++ baseEnv.bundler.name ++
          String.join (initialState.configs.map (fun p => p.2))))) ∧
    (getHashes baseEnv initialState "ag").2 =
      (getHashes { baseEnv with mode := "production" }
        { initialState with devDepRequests := [("k", "h")], invalidations := ["x"] }
        "other").2 :=
  claim_C3 baseEnv { baseEnv with mode := "production" } initialState
    { initialState with devDepRequests := [("k", "h")], invalidations := ["x"] }
    "ag" "other" rfl rfl rfl rfl

theorem postPhase_name_error (env : Env) (inp : BundleInput)
    (st0 : RunnerState) (bh : String) (f : Bool) (g : BundleGraphM)
    (tr : List Ev) (err : BuildError)
    (h : (nameBundles env (runDevDepRequest st0 (bundlerDevDep env)
      (env.devDepHash (bundlerDevDep env))).1 g).1 = .error err) :
    (postPhase env inp st0 bh f g tr).result = .error err := by
  rcases hq : nameBundles env (runDevDepRequest st0 (bundlerDevDep env)
      (env.devDepHash (bundlerDevDep env))).1 g with ⟨r, nEvs⟩
  rw [hq] at h
  have hr : r = .error err := h
  subst hr
  simp only [postPhase, hq]

/-- Claim C4: the namers are tried in list order and the first namer
returning a non-null name determines the bundle's name, after which no
further namer is invoked for that bundle (the invocation trace stops at
the winner); if every namer returns null, naming fails with the
naming-exhaustion error, which is a plain error, a shape distinct from the
plugin-diagnostic wrapping of thrown plugin errors, and the whole build
fails with it. -/
theorem claim_C4 (pre post : List NamerSpec) (n : NamerSpec) (b : Bundle)
    (x : String)
    (hpre : ∀ nm ∈ pre, nm.run b = .ok none)
    (hn : n.run b = .ok (some x)) :
    (nameBundle (pre ++ n :: post) b =
      (.ok (namedBundle b x),
       pre.map (fun nm => Ev.namerInvoke nm.name) ++ [Ev.namerInvoke n.name])) ∧
    (∀ (namers : List NamerSpec) (b2 : Bundle),
      (∀ nm ∈ namers, nm.run b2 = .ok none) →
      (nameBundle namers b2).1 = .error (.plainError "Unable to name bundle")) ∧
    (∀ (env : Env) (st : RunnerState) (g : BundleGraphM),
      g.bundles ≠ [] →
      (∀ nm ∈ env.namers, ∀ b2 ∈ g.bundles, nm.run b2 = .ok none) →
      (nameBundles env st g).1 = .error (.plainError "Unable to name bundle")) ∧
    (∀ (o m m2 : String),
      BuildError.plainError m2 ≠ BuildError.pluginDiagnostic o m) ∧
    (∀ (env : Env) (inp : BundleInput) (st0 : RunnerState) (bh : String)
       (preTr : List Ev) (g1 : BundleGraphM),
      decideSafeFlag inp (fetchPrevious env inp).1 bh = false →
      env.bundleFn (BundleGraphM.fromAssetGraph inp.assetGraphHash) = .ok g1 →
      env.mode ≠ "production" →
      g1.bundles ≠ [] →
      (∀ nm ∈ env.namers, ∀ b2 ∈ g1.bundles, nm.run b2 = .ok none) →
      (bundleFull env inp st0 bh preTr).result =
        .error (.plainError "Unable to name bundle")) := by
  refine ⟨?_, nameBundle_all_null, nameBundles_all_null, ?_, ?_⟩
  · rw [nameBundle_skip_null pre (n :: post) b hpre]
    simp only [nameBundle, hn]
  · intro o m m2 hcon
    cases hcon
  · intro env inp st0 bh preTr g1 hflag hbf hmode hne hnull
    rw [bundleFull_fresh env inp st0 bh preTr g1 hflag hbf hmode]
    exact postPhase_name_error env inp st0 bh false g1 _ _
      (nameBundles_all_null env _ g1 hne hnull)

/-- Witness for claim C4: with namers null-then-out the bundle is named
out by the second namer and the third namer is not invoked; with only a
null namer, naming fails with the plain naming-exhaustion error, which
differs from a plugin diagnostic, and the full computation fails with it. -/
theorem claim_C4_witness :
    (nameBundle ([nullNamer] ++ outNamer :: [nullNamer]) testBundle =
      (.ok (namedBundle testBundle "out"),
       [nullNamer].map (fun nm => Ev.namerInvoke nm.name) ++
         [Ev.namerInvoke outNamer.name])) ∧
    (nameBundle [nullNamer] testBundle).1 =
      .error (.plainError "Unable to name bundle") ∧
    (nameBundles nullEnv initialState oneBundleGraph).1 =
      .error (.plainError "Unable to name bundle") ∧
    BuildError.plainError "Unable to name bundle" ≠
      BuildError.pluginDiagnostic "namer" "boom" ∧
    (bundleFull nullEnv baseInput initialState "H" []).result =
      .error (.plainError "Unable to name bundle") := by
  have hnull1 : ∀ nm ∈ [nullNamer], nm.run testBundle = Except.ok none := by
    intro nm hm
    rcases List.mem_singleton.mp hm with rfl
    rfl
  have C := claim_C4 [nullNamer] [nullNamer] outNamer testBundle "out" hnull1 rfl
  refine ⟨C.1, C.2.1 [nullNamer] testBundle hnull1, ?_,
    C.2.2.2.1 "namer" "boom" "Unable to name bundle", ?_⟩
  · refine C.2.2.1 nullEnv initialState oneBundleGraph (by decide) ?_
    intro nm hm b2 hb
    rcases List.mem_singleton.mp hm with rfl
    rfl
  · refine C.2.2.2.2 nullEnv baseInput initialState "H" [] oneBundleGraph rfl rfl
      (by decide) (by decide) ?_
    intro nm hm b2 hb
    rcases List.mem_singleton.mp hm with rfl
    rfl

theorem namedPairsNodup (named : List Bundle)
    (h : named.map (fun b => joinProjectPath b.distDir (b.name.getD "")) =
         uniqueJs (named.map (fun b => joinProjectPath b.distDir (b.name.getD "")))) :
    (named.map (fun b => (b.distDir, b.name))).Nodup := by
  have hjoin := uniqueJs_eq_self_nodup _ h
  have hmap : (named.map (fun b => (b.distDir, b.name))).map
      (fun p : String × Option String => p.1 ++ "/" ++ p.2.getD "")
      = named.map (fun b => joinProjectPath b.distDir (b.name.getD "")) := by
    rw [List.map_map]
    rfl
  apply List.Nodup.of_map (fun p : String × Option String => p.1 ++ "/" ++ p.2.getD "")
  rw [hmap]
  exact hjoin

/-- Claim C5: after a successful naming phase the list of (distDir, name)
pairs over all bundles (inline included) has no duplicates; and whenever
the namers produce two bundles with the same (distDir, name) pair, the
phase fails with the name-collision assertion error instead of silently
keeping both. -/
theorem claim_C5 :
    (∀ (env : Env) (st : RunnerState) (g g' : BundleGraphM) (st' : RunnerState)
       (evs : List Ev),
      nameBundles env st g = (.ok (g', st'), evs) →
      (g'.bundles.map (fun b => (b.distDir, b.name))).Nodup) ∧
    (∀ (env : Env) (st : RunnerState) (g : BundleGraphM) (named : List Bundle)
       (evs : List Ev),
      nameAllBundles env.namers g.bundles = (.ok named, evs) →
      ¬ (named.map (fun b => (b.distDir, b.name))).Nodup →
      (nameBundles env st g).1 =
        .error (.assertionError "Bundles must have unique names")) := by
  constructor
  · intro env st g g' st' evs h
    simp only [nameBundles] at h
    split at h
    · simp only [Prod.mk.injEq] at h
      exact absurd h.1 (by simp)
    · rename_i named nEvs heq
      split at h
      · rename_i huniq
        simp only [Prod.mk.injEq, Except.ok.injEq] at h
        obtain ⟨⟨hg, _⟩, _⟩ := h
        rw [← hg]
        exact namedPairsNodup named huniq
      · simp only [Prod.mk.injEq] at h
        exact absurd h.1 (by simp)
  · intro env st g named evs heq hdup
    simp only [nameBundles, heq]
    split
    · rename_i huniq
      exact absurd (namedPairsNodup named huniq) hdup
    · rfl

/-- Witness for claim C5: a successful one-bundle naming yields
duplicate-free (distDir, name) pairs; a two-bundle graph whose only namer
returns the same literal name for both bundles fails with the collision
assertion error. -/
theorem claim_C5_witness :
    (([namedBundle testBundle "out"]).map (fun b => (b.distDir, b.name))).Nodup ∧
    (nameBundles baseEnv initialState twoBundleGraph).1 =
      .error (.assertionError "Bundles must have unique names") := by
  constructor
  · exact claim_C5.1 baseEnv initialState oneBundleGraph _ _ _ rfl
  · exact claim_C5.2 baseEnv initialState twoBundleGraph
      [namedBundle testBundle "out", namedBundle { testBundle with isInline := true } "out"]
      [Ev.namerInvoke "namer", Ev.namerInvoke "namer"] rfl (by decide)

theorem optimize_not_in_loadConfigs (env : Env) (st : RunnerState) :
    Ev.bundlerOptimize ∉ (loadConfigs env st).2 := by
  intro hx
  rcases loadConfigs_events env st _ hx with ⟨n, h⟩ | ⟨k, h⟩ <;> cases h

theorem optimize_not_in_fetchPrevious (env : Env) (inp : BundleInput) :
    Ev.bundlerOptimize ∉ (fetchPrevious env inp).2 := by
  intro hx
  rcases fetchPrevious_events env inp _ hx with ⟨s, h⟩
  cases h

theorem optimize_not_in_preTrace (env : Env) (k : String) :
    Ev.bundlerOptimize ∉
      (loadConfigs env initialState).2 ++ [Ev.getPreviousResult k] := by
  intro hx
  rcases List.mem_append.mp hx with h | h
  · exact optimize_not_in_loadConfigs env _ h
  · simp only [List.mem_singleton] at h
    cases h

theorem postPhase_count_optimize (env : Env) (inp : BundleInput)
    (st0 : RunnerState) (bh : String) (f : Bool) (g : BundleGraphM)
    (tr : List Ev) :
    (postPhase env inp st0 bh f g tr).trace.count Ev.bundlerOptimize
      = tr.count Ev.bundlerOptimize := by
  obtain ⟨rest, htr, hrest⟩ := postPhase_trace_rest env inp st0 bh f g tr
  rw [htr, List.count_append]
  have h0 : rest.count Ev.bundlerOptimize = 0 := by
    rw [List.count_eq_zero]
    intro hx
    rcases hrest _ hx with ⟨k, h⟩ | ⟨n, h⟩ | h | ⟨k, h⟩ <;> cases h
  rw [h0, Nat.add_zero]

theorem bundleFull_count_optimize_one (env : Env) (inp : BundleInput)
    (st0 : RunnerState) (bh : String) (preTr : List Ev) (g1 : BundleGraphM)
    (hmode : env.mode = "production")
    (hflag : decideSafeFlag inp (fetchPrevious env inp).1 bh = false)
    (hbf : env.bundleFn (BundleGraphM.fromAssetGraph inp.assetGraphHash) = .ok g1)
    (hpre : Ev.bundlerOptimize ∉ preTr) :
    (bundleFull env inp st0 bh preTr).trace.count Ev.bundlerOptimize = 1 := by
  rcases hopt : env.optimizeFn g1 with msg | g2
  · have heq : bundleFull env inp st0 bh preTr =
        { result := .error (.pluginDiagnostic env.bundler.name msg),
          trace := preTr ++ (fetchPrevious env inp).2 ++
            [Ev.bundlerBundle, Ev.bundlerOptimize],
          safeToIncrementallyBundle := false, stores := [], finalState := st0 } := by
      simp only [bundleFull, hflag, runPhase, Bool.false_eq_true, if_false, hbf,
        hmode, if_true, hopt]
    rw [heq]
    simp only [List.count_append,
      List.count_eq_zero.mpr hpre,
      List.count_eq_zero.mpr (optimize_not_in_fetchPrevious env inp)]
    rfl
  · have heq : bundleFull env inp st0 bh preTr =
        postPhase env inp st0 bh false g2
          (preTr ++ (fetchPrevious env inp).2 ++
            [Ev.bundlerBundle, Ev.bundlerOptimize]) := by
      simp only [bundleFull, hflag, runPhase, Bool.false_eq_true, if_false, hbf,
        hmode, if_true, hopt]
    rw [heq, postPhase_count_optimize]
    simp only [List.count_append,
      List.count_eq_zero.mpr hpre,
      List.count_eq_zero.mpr (optimize_not_in_fetchPrevious env inp)]
    rfl

/-- Claim C6 (amended): the optimize operation is never invoked outside
production mode, on any execution path; in production mode it is invoked
exactly once in every computation that reaches the full bundling path
(cache probes miss, incremental reuse not eligible) and whose bundle
operation returns, and it is not invoked at all — in any mode, production
included — on a resident-cache hit, on a durable-cache hit, or on an
eligible incremental-reuse computation. -/
theorem claim_C6_amended :
    (∀ (env : Env) (inp : BundleInput), env.mode ≠ "production" →
      Ev.bundlerOptimize ∉ (bundleRun env inp).trace) ∧
    (∀ (env : Env) (inp : BundleInput) (g1 : BundleGraphM),
      env.mode = "production" →
      env.getPreviousResult (probeKeys env inp.assetGraphHash).1 = none →
      (env.shouldDisableCache = true ∨
        env.cacheGetBuffer (probeKeys env inp.assetGraphHash).1 = none) →
      decideSafeFlag inp (fetchPrevious env inp).1
        (probeKeys env inp.assetGraphHash).2 = false →
      env.bundleFn (BundleGraphM.fromAssetGraph inp.assetGraphHash) = .ok g1 →
      (bundleRun env inp).trace.count Ev.bundlerOptimize = 1) ∧
    (∀ (env : Env) (inp : BundleInput) (prev : StoredResult),
      env.getPreviousResult (probeKeys env inp.assetGraphHash).1 = some prev →
      Ev.bundlerOptimize ∉ (bundleRun env inp).trace) ∧
    (∀ (env : Env) (inp : BundleInput) (bytes : String),
      env.getPreviousResult (probeKeys env inp.assetGraphHash).1 = none →
      env.shouldDisableCache = false →
      env.cacheGetBuffer (probeKeys env inp.assetGraphHash).1 = some bytes →
      Ev.bundlerOptimize ∉ (bundleRun env inp).trace) ∧
    (∀ (env : Env) (inp : BundleInput) (ph : String) (prev : StoredResult),
      env.getPreviousResult (probeKeys env inp.assetGraphHash).1 = none →
      (env.shouldDisableCache = true ∨
        env.cacheGetBuffer (probeKeys env inp.assetGraphHash).1 = none) →
      inp.safeToIncrementallyBundle = true →
      inp.previousAssetGraphHash = some ph →
      env.getRequestResult ("BundleGraph:" ++ ph) = some prev →
      prev.bundlerHash = some (probeKeys env inp.assetGraphHash).2 →
      Ev.bundlerOptimize ∉ (bundleRun env inp).trace) := by
  refine ⟨?_, ?_, ?_, ?_, ?_⟩
  · intro env inp hmode hmem
    have hshape := bundleRun_events env inp _ hmem
    simp only [Ev.engineShape] at hshape
    rcases hshape with ⟨n, h⟩ | ⟨k, h⟩ | ⟨k, h⟩ | ⟨k, h⟩ | ⟨s, h⟩ | ⟨a, h⟩ |
      h | ⟨h, hprod⟩ | ⟨n, h⟩ | h | ⟨k, h⟩ <;> first
      | exact hmode hprod
      | cases h
  · intro env inp g1 hmode h1 h2 hflag hbf
    rcases h2 with hdis | hbuf
    · rw [bundleRun_missDisabled env inp h1 hdis]
      exact bundleFull_count_optimize_one env inp _ _ _ g1 hmode hflag hbf
        (optimize_not_in_preTrace env _)
    · rcases hdis : env.shouldDisableCache with _ | _
      · rw [bundleRun_missDurable env inp h1 hdis hbuf]
        refine bundleFull_count_optimize_one env inp _ _ _ g1 hmode hflag hbf ?_
        intro hx
        rcases List.mem_append.mp hx with h | h
        · rcases List.mem_append.mp h with h | h
          · exact optimize_not_in_loadConfigs env _ h
          · simp only [List.mem_singleton] at h
            cases h
        · simp only [List.mem_singleton] at h
          cases h
      · rw [bundleRun_missDisabled env inp h1 hdis]
        exact bundleFull_count_optimize_one env inp _ _ _ g1 hmode hflag hbf
          (optimize_not_in_preTrace env _)
  · intro env inp prev h
    rw [bundleRun_resident env inp prev h]
    exact optimize_not_in_preTrace env _
  · intro env inp bytes h1 h2 h3
    rw [bundleRun_durableHit env inp bytes h1 h2 h3]
    intro hx
    rcases List.mem_append.mp hx with h | h
    · exact optimize_not_in_preTrace env _ h
    · simp only [List.mem_cons, List.mem_singleton, List.not_mem_nil,
        or_false] at h
      rcases h with h | h <;> cases h
  · intro env inp ph prev h1 h2 hsafe hprev hfetch hbh
    obtain ⟨preTr, hred, hpre⟩ := bundleRun_miss_exists env inp h1 h2
    rw [hred, bundleFull_incremental env inp (preState env)
      (probeKeys env inp.assetGraphHash).2 preTr ph prev hsafe hprev hfetch hbh]
    obtain ⟨rest, htr, hrest⟩ := postPhase_trace_rest env inp (preState env)
      (probeKeys env inp.assetGraphHash).2 true
      (inp.changedAssets.foldl (fun g ca => g.updateAsset ca.2) prev.bundleGraph)
      (preTr ++ [Ev.getRequestResult ("BundleGraph:" ++ ph)] ++
        inp.changedAssets.map (fun ca => Ev.updateAsset ca.2.id))
    rw [htr]
    intro hx
    rcases List.mem_append.mp hx with hx | hx
    · rcases List.mem_append.mp hx with hx | hx
      · rcases List.mem_append.mp hx with hx | hx
        · rcases hpre _ hx with ⟨n, h⟩ | ⟨k, h⟩ | ⟨k, h⟩ | ⟨k, h⟩ <;> cases h
        · simp only [List.mem_singleton] at hx
          cases hx
      · rcases List.mem_map.mp hx with ⟨c, _, h⟩
        cases h
    · rcases hrest _ hx with ⟨k, h⟩ | ⟨n, h⟩ | h | ⟨k, h⟩ <;> cases h

/-- Witness for claim C6 (amended): the development run never invokes
optimize; the production cold full computation invokes it exactly once;
and production runs hitting the resident cache, hitting the durable
cache, or eligibly reusing the prior graph invoke it zero times. -/
theorem claim_C6_witness :
    (bundleRun baseEnv baseInput).trace.count Ev.bundlerOptimize = 0 ∧
    (bundleRun prodMissEnv baseInput).trace.count Ev.bundlerOptimize = 1 ∧
    (bundleRun prodHitEnv baseInput).trace.count Ev.bundlerOptimize = 0 ∧
    (bundleRun prodDurableEnv baseInput).trace.count Ev.bundlerOptimize = 0 ∧
    (bundleRun prodWarmEnv warmInput).trace.count Ev.bundlerOptimize = 0 :=
  ⟨List.count_eq_zero.mpr (claim_C6_amended.1 baseEnv baseInput (by decide)),
   claim_C6_amended.2.1 prodMissEnv baseInput
     { origin := .fresh "ag", bundles := [testBundle], updatedAssets := [] }
     rfl rfl (Or.inl rfl) rfl rfl,
   List.count_eq_zero.mpr
     (claim_C6_amended.2.2.1 prodHitEnv baseInput matchingPrevResult rfl),
   List.count_eq_zero.mpr
     (claim_C6_amended.2.2.2.1 prodDurableEnv baseInput "bytes" rfl rfl rfl),
   List.count_eq_zero.mpr
     (claim_C6_amended.2.2.2.2 prodWarmEnv warmInput "p" matchingPrevResult
       rfl (Or.inl rfl) rfl rfl rfl rfl)⟩

/-- Counterexample to claim C6 as stated: in production mode a
resident-cache hit returns the prior result without ever invoking the
optimize operation, so optimize is not invoked exactly once in every
production computation. -/
theorem claim_C6_counterexample :
    prodHitEnv.mode = "production" ∧
    (bundleRun prodHitEnv baseInput).result = .ok (.previousResult matchingPrevResult) ∧
    (bundleRun prodHitEnv baseInput).trace.count Ev.bundlerOptimize = 0 := by
  refine ⟨rfl, by decide, by decide⟩

theorem postPhase_ok_result (env : Env) (inp : BundleInput) (st0 : RunnerState)
    (bh : String) (f : Bool) (g : BundleGraphM) (tr : List Ev)
    (g' : BundleGraphM) (bh' : String) (ca : List (String × Asset))
    (hAR : ∀ gg, ((env.applyRuntimesFn gg).1).origin = gg.origin ∧
      ((env.applyRuntimesFn gg).1).updatedAssets = gg.updatedAssets)
    (h : (postPhase env inp st0 bh f g tr).result = .ok (.result g' bh' ca)) :
    g'.origin = g.origin ∧ g'.updatedAssets = g.updatedAssets ∧ bh' = bh ∧
    Ev.applyRuntimes ∈ (postPhase env inp st0 bh f g tr).trace := by
  rcases hnb : nameBundles env (runDevDepRequest st0 (bundlerDevDep env)
      (env.devDepHash (bundlerDevDep env))).1 g with ⟨r, nEvs⟩
  rcases r with e | ⟨g2, st2⟩
  · simp only [postPhase, hnb] at h
    exact absurd h (by simp)
  · simp only [postPhase, hnb, runApplyRuntimes] at h ⊢
    simp only [Except.ok.injEq, BundleReturn.result.injEq] at h
    obtain ⟨hg, hbhx, _⟩ := h
    obtain ⟨ho, hu⟩ := nameBundles_ok_graph env _ g g2 st2 nEvs hnb
    refine ⟨?_, ?_, hbhx.symm, ?_⟩
    · rw [← hg, (hAR g2).1, ho]
    · rw [← hg, (hAR g2).2, hu]
    · simp

theorem postPhase_ok_stores (env : Env) (inp : BundleInput) (st0 : RunnerState)
    (bh : String) (f : Bool) (g : BundleGraphM) (tr : List Ev)
    (g' : BundleGraphM) (bh' : String) (ca : List (String × Asset))
    (h : (postPhase env inp st0 bh f g tr).result = .ok (.result g' bh' ca)) :
    devDepKey (bundlerDevDep env) ∈
      (postPhase env inp st0 bh f g tr).finalState.devDepRequests.map Prod.fst ∧
    (postPhase env inp st0 bh f g tr).stores =
      [((getHashes env (postPhase env inp st0 bh f g tr).finalState
          inp.assetGraphHash).1,
        { bundleGraph := g', bundlerHash := some bh, changedAssets := [] })] := by
  rcases hnb : nameBundles env (runDevDepRequest st0 (bundlerDevDep env)
      (env.devDepHash (bundlerDevDep env))).1 g with ⟨r, nEvs⟩
  rcases r with e | ⟨g2, st2⟩
  · simp only [postPhase, hnb] at h
    exact absurd h (by simp)
  · simp only [postPhase, hnb, runApplyRuntimes] at h ⊢
    simp only [Except.ok.injEq, BundleReturn.result.injEq] at h
    obtain ⟨hg, _, _⟩ := h
    constructor
    · apply runDevDeps_keys_mono
      exact nameBundles_keys_mono env _ g g2 st2 nEvs _ hnb
        (runDevDepRequest_key_mem st0 (bundlerDevDep env) _)
    · rw [hg]

/-- Claim C1 (amended): when incremental reuse is eligible (the flag is
set, a previous asset-graph hash is present, the prior result is fetched
and its bundlerHash equals the current one), the engine reuses the prior
BundleGraph object, applies exactly one update-asset patch per changed
asset, and performs no structural re-bundling and no re-optimization on
that graph; however, contrary to the claim as stated, the naming phase and
runtime injection ARE re-run on the reused graph. -/
theorem claim_C1_amended (env : Env) (inp : BundleInput) (ph : String)
    (prev : StoredResult)
    (h1 : env.getPreviousResult (probeKeys env inp.assetGraphHash).1 = none)
    (h2 : env.shouldDisableCache = true ∨
      env.cacheGetBuffer (probeKeys env inp.assetGraphHash).1 = none)
    (hsafe : inp.safeToIncrementallyBundle = true)
    (hprev : inp.previousAssetGraphHash = some ph)
    (hfetch : env.getRequestResult ("BundleGraph:" ++ ph) = some prev)
    (hbh : prev.bundlerHash = some (probeKeys env inp.assetGraphHash).2)
    (hAR : ∀ g, ((env.applyRuntimesFn g).1).origin = g.origin ∧
      ((env.applyRuntimesFn g).1).updatedAssets = g.updatedAssets) :
    Ev.bundlerBundle ∉ (bundleRun env inp).trace ∧
    Ev.bundlerOptimize ∉ (bundleRun env inp).trace ∧
    (bundleRun env inp).trace.filter Ev.isUpdateAsset =
      inp.changedAssets.map (fun ca => Ev.updateAsset ca.2.id) ∧
    (∀ (g : BundleGraphM) (bh2 : String) (ca : List (String × Asset)),
      (bundleRun env inp).result = .ok (.result g bh2 ca) →
      g.origin = prev.bundleGraph.origin ∧
      g.updatedAssets = prev.bundleGraph.updatedAssets ++
        inp.changedAssets.map (fun ca2 => ca2.2.id) ∧
      Ev.applyRuntimes ∈ (bundleRun env inp).trace) := by
  obtain ⟨preTr, hred, hpre⟩ := bundleRun_miss_exists env inp h1 h2
  have hinc := bundleFull_incremental env inp (preState env)
    (probeKeys env inp.assetGraphHash).2 preTr ph prev hsafe hprev hfetch hbh
  rw [hred, hinc]
  obtain ⟨rest, htr, hrest⟩ := postPhase_trace_rest env inp (preState env)
    (probeKeys env inp.assetGraphHash).2 true
    (inp.changedAssets.foldl (fun g ca => g.updateAsset ca.2) prev.bundleGraph)
    (preTr ++ [Ev.getRequestResult ("BundleGraph:" ++ ph)] ++
      inp.changedAssets.map (fun ca => Ev.updateAsset ca.2.id))
  refine ⟨?_, ?_, ?_, ?_⟩
  · rw [htr]
    intro hx
    rcases List.mem_append.mp hx with hx | hx
    · rcases List.mem_append.mp hx with hx | hx
      · rcases List.mem_append.mp hx with hx | hx
        · rcases hpre _ hx with ⟨n, h⟩ | ⟨k, h⟩ | ⟨k, h⟩ | ⟨k, h⟩ <;> cases h
        · simp only [List.mem_singleton] at hx
          cases hx
      · rcases List.mem_map.mp hx with ⟨c, _, h⟩
        cases h
    · rcases hrest _ hx with ⟨k, h⟩ | ⟨n, h⟩ | h | ⟨k, h⟩ <;> cases h
  · rw [htr]
    intro hx
    rcases List.mem_append.mp hx with hx | hx
    · rcases List.mem_append.mp hx with hx | hx
      · rcases List.mem_append.mp hx with hx | hx
        · rcases hpre _ hx with ⟨n, h⟩ | ⟨k, h⟩ | ⟨k, h⟩ | ⟨k, h⟩ <;> cases h
        · simp only [List.mem_singleton] at hx
          cases hx
      · rcases List.mem_map.mp hx with ⟨c, _, h⟩
        cases h
    · rcases hrest _ hx with ⟨k, h⟩ | ⟨n, h⟩ | h | ⟨k, h⟩ <;> cases h
  · rw [htr]
    rw [List.filter_append, List.filter_append, List.filter_append]
    have hp1 : preTr.filter Ev.isUpdateAsset = [] := by
      rw [List.filter_eq_nil_iff]
      intro e he
      rcases hpre _ he with ⟨n, h⟩ | ⟨k, h⟩ | ⟨k, h⟩ | ⟨k, h⟩ <;>
        (subst h; simp [Ev.isUpdateAsset])
    have hp2 : [Ev.getRequestResult ("BundleGraph:" ++ ph)].filter
        Ev.isUpdateAsset = [] := rfl
    have hp3 : (inp.changedAssets.map (fun ca => Ev.updateAsset ca.2.id)).filter
        Ev.isUpdateAsset = inp.changedAssets.map (fun ca => Ev.updateAsset ca.2.id) := by
      rw [List.filter_eq_self]
      intro e he
      rcases List.mem_map.mp he with ⟨c, _, h⟩
      subst h
      simp [Ev.isUpdateAsset]
    have hp4 : rest.filter Ev.isUpdateAsset = [] := by
      rw [List.filter_eq_nil_iff]
      intro e he
      rcases hrest _ he with ⟨k, h⟩ | ⟨n, h⟩ | h | ⟨k, h⟩ <;>
        (subst h; simp [Ev.isUpdateAsset])
    rw [hp1, hp2, hp3, hp4]
    simp
  · intro g bh2 ca h
    obtain ⟨ho, hu, _, hmem⟩ := postPhase_ok_result env inp (preState env)
      (probeKeys env inp.assetGraphHash).2 true
      (inp.changedAssets.foldl (fun gr c => gr.updateAsset c.2) prev.bundleGraph)
      _ g bh2 ca hAR h
    obtain ⟨hfo, _, hfu⟩ := foldl_updateAsset inp.changedAssets prev.bundleGraph
    exact ⟨by rw [ho, hfo], by rw [hu, hfu], hmem⟩

/-- Witness for claim C1 (amended): on the concrete eligible warm build,
the bundler is not re-invoked, the single changed asset is patched exactly
once, and the successful result is the prior graph with that patch. -/
theorem claim_C1_witness :
    (bundleRun warmEnv warmInput).trace.count Ev.bundlerBundle = 0 ∧
    (bundleRun warmEnv warmInput).trace.count Ev.bundlerOptimize = 0 ∧
    (bundleRun warmEnv warmInput).trace.filter Ev.isUpdateAsset =
      warmInput.changedAssets.map (fun ca => Ev.updateAsset ca.2.id) ∧
    (warmOutGraph.origin = matchingPrevResult.bundleGraph.origin ∧
      warmOutGraph.updatedAssets = matchingPrevResult.bundleGraph.updatedAssets ++
        warmInput.changedAssets.map (fun ca2 => ca2.2.id) ∧
      Ev.applyRuntimes ∈ (bundleRun warmEnv warmInput).trace) := by
  have C := claim_C1_amended warmEnv warmInput "p" matchingPrevResult rfl
    (Or.inl rfl) rfl rfl rfl rfl (fun _ => ⟨rfl, rfl⟩)
  exact ⟨List.count_eq_zero.mpr C.1, List.count_eq_zero.mpr C.2.1, C.2.2.1,
    C.2.2.2 warmOutGraph "H" [] (by decide)⟩

/-- Counterexample to claim C1 as stated: on an eligible incremental-reuse
computation (flag set, predecessor hash present, prior result fetched with
an equal bundlerHash), the trace still contains a namer invocation and the
runtime-injection event, refuting the no-re-naming and
no-re-injection-of-runtimes parts of the claim. -/
theorem claim_C1_counterexample :
    warmInput.safeToIncrementallyBundle = true ∧
    warmInput.previousAssetGraphHash = some "p" ∧
    warmEnv.getRequestResult "BundleGraph:p" = some matchingPrevResult ∧
    matchingPrevResult.bundlerHash =
      some (probeKeys warmEnv warmInput.assetGraphHash).2 ∧
    Ev.namerInvoke "namer" ∈ (bundleRun warmEnv warmInput).trace ∧
    Ev.applyRuntimes ∈ (bundleRun warmEnv warmInput).trace :=
  ⟨rfl, rfl, rfl, by decide, by decide, by decide⟩

theorem decideSafeFlag_false_of_mismatch (inp : BundleInput)
    (fetched : Option StoredResult) (bh : String)
    (h : fetched = none ∨ ∃ r, fetched = some r ∧ r.bundlerHash ≠ some bh) :
    decideSafeFlag inp fetched bh = false := by
  rcases h with rfl | ⟨r, rfl, hne⟩
  · rfl
  · simp only [decideSafeFlag, if_neg hne]

theorem bundleFull_no_update (env : Env) (inp : BundleInput) (st0 : RunnerState)
    (bh : String) (preTr : List Ev)
    (hpre : ∀ e ∈ preTr, ∀ a, e ≠ Ev.updateAsset a)
    (hflag : decideSafeFlag inp (fetchPrevious env inp).1 bh = false) :
    ∀ a, Ev.updateAsset a ∉ (bundleFull env inp st0 bh preTr).trace := by
  intro a
  simp only [bundleFull, hflag]
  split
  · rename_i err pEvs heq
    intro hx
    rcases List.mem_append.mp hx with hx | hx
    · rcases List.mem_append.mp hx with hx | hx
      · exact hpre _ hx a rfl
      · rcases fetchPrevious_events env inp _ hx with ⟨s, h⟩
        cases h
    · have : Ev.updateAsset a ∈ (runPhase env inp (fetchPrevious env inp).1 false).2 := by
        rw [heq]; exact hx
      rcases runPhase_no_update_of_false env inp _ _ this with h | h <;> cases h
  · rename_i g pEvs heq
    obtain ⟨rest, htr, hrest⟩ := postPhase_trace_rest env inp st0 bh false g
      (preTr ++ (fetchPrevious env inp).2 ++ pEvs)
    rw [htr]
    intro hx
    rcases List.mem_append.mp hx with hx | hx
    · rcases List.mem_append.mp hx with hx | hx
      · rcases List.mem_append.mp hx with hx | hx
        · exact hpre _ hx a rfl
        · rcases fetchPrevious_events env inp _ hx with ⟨s, h⟩
          cases h
      · have : Ev.updateAsset a ∈ (runPhase env inp (fetchPrevious env inp).1 false).2 := by
          rw [heq]; exact hx
        rcases runPhase_no_update_of_false env inp _ _ this with h | h <;> cases h
    · rcases hrest _ hx with ⟨k, h⟩ | ⟨n, h⟩ | h | ⟨k, h⟩ <;> cases h

/-- Claim C2 (amended): in every computation that reaches the
incremental-reuse decision (both cache probes miss), a freshly computed
bundlerHash that differs from the one stored in the predecessor's fetched
result, or an absent or unfetchable predecessor result, prevents reuse of
the predecessor's bundle graph (no update-asset patch is applied) and
sets safeToIncrementallyBundle to false on the current asset graph; a
fetch failure of the prior result is recovered locally: the whole run is
identical to one in which no prior result exists, so it never fails the
build by itself.  On cache-hit paths, refuted separately, the flag is not
touched. -/
theorem claim_C2_amended (env : Env) (inp : BundleInput)
    (h1 : env.getPreviousResult (probeKeys env inp.assetGraphHash).1 = none)
    (h2 : env.shouldDisableCache = true ∨
      env.cacheGetBuffer (probeKeys env inp.assetGraphHash).1 = none) :
    (((fetchPrevious env inp).1 = none ∨
      (∃ r, (fetchPrevious env inp).1 = some r ∧
        r.bundlerHash ≠ some (probeKeys env inp.assetGraphHash).2)) →
      (bundleRun env inp).safeToIncrementallyBundle = false ∧
      ∀ a, Ev.updateAsset a ∉ (bundleRun env inp).trace) ∧
    (∀ ph, inp.previousAssetGraphHash = some ph →
      env.getRequestResult ("BundleGraph:" ++ ph) = none →
      bundleRun env inp = bundleRun (envNoFetch env) inp) := by
  constructor
  · intro hmis
    obtain ⟨preTr, hred, hpre⟩ := bundleRun_miss_exists env inp h1 h2
    have hflag : decideSafeFlag inp (fetchPrevious env inp).1
        (probeKeys env inp.assetGraphHash).2 = false :=
      decideSafeFlag_false_of_mismatch inp _ _ hmis
    rw [hred]
    constructor
    · rw [bundleFull_flag]
      exact hflag
    · refine bundleFull_no_update env inp _ _ preTr ?_ hflag
      intro e he a
      rcases hpre _ he with ⟨n, h⟩ | ⟨k, h⟩ | ⟨k, h⟩ | ⟨k, h⟩ <;>
        (subst h; intro hc; cases hc)
  · intro ph hph hnone
    have hfpe : fetchPrevious env inp = fetchPrevious (envNoFetch env) inp := by
      simp only [fetchPrevious, hph, envNoFetch]
      cases hs : inp.safeToIncrementallyBundle
      · simp
      · simp [hnone]
    simp only [bundleRun, bundleFull]
    rw [← hfpe]
    rfl

/-- Witness for claim C2 (amended): on the concrete cache-miss build whose
predecessor result carries a different bundlerHash, the flag becomes false
and no patch is applied; and a build whose prior-result fetch fails is
identical to one with no prior result at all. -/
theorem claim_C2_witness :
    ((bundleRun warmMismatchEnv warmInput).safeToIncrementallyBundle = false ∧
      (bundleRun warmMismatchEnv warmInput).trace.count (Ev.updateAsset "a1") = 0) ∧
    bundleRun baseEnv warmInput = bundleRun (envNoFetch baseEnv) warmInput := by
  have C := (claim_C2_amended warmMismatchEnv warmInput rfl (Or.inl rfl)).1
    (Or.inr ⟨mismatchPrevResult, rfl, by decide⟩)
  exact ⟨⟨C.1, List.count_eq_zero.mpr (C.2 "a1")⟩,
    (claim_C2_amended baseEnv warmInput rfl (Or.inl rfl)).2 "p" rfl rfl⟩

/-- Counterexample to claim C2 as stated: with a resident-cache hit, the
predecessor's stored result exists and carries a different bundlerHash,
yet the computation returns the resident result and leaves
safeToIncrementallyBundle true instead of setting it to false. -/
theorem claim_C2_counterexample :
    residentMismatchEnv.getRequestResult "BundleGraph:p" = some mismatchPrevResult ∧
    mismatchPrevResult.bundlerHash ≠
      some (probeKeys residentMismatchEnv warmInput.assetGraphHash).2 ∧
    (bundleRun residentMismatchEnv warmInput).safeToIncrementallyBundle = true :=
  ⟨rfl, by decide, by decide⟩

/-- Claim C7: in every full (cache-miss) computation that returns the full
result record, the bundler plugin's dev dependency — recorded only after
its phase completes — is present in the dev-dependency map used by the
second, post-phase cache-key computation, and the result is stored under
exactly that second cache key; its absence from the first, probing
computation is witnessed concretely. -/
theorem claim_C7 (env : Env) (inp : BundleInput) (g : BundleGraphM)
    (bh2 : String) (ca : List (String × Asset))
    (h1 : env.getPreviousResult (probeKeys env inp.assetGraphHash).1 = none)
    (h2 : env.shouldDisableCache = true ∨
      env.cacheGetBuffer (probeKeys env inp.assetGraphHash).1 = none)
    (hok : (bundleRun env inp).result = .ok (.result g bh2 ca)) :
    devDepKey (bundlerDevDep env) ∈
      (bundleRun env inp).finalState.devDepRequests.map Prod.fst ∧
    (bundleRun env inp).stores =
      [((getHashes env (bundleRun env inp).finalState inp.assetGraphHash).1,
        { bundleGraph := g,
          bundlerHash := some (probeKeys env inp.assetGraphHash).2,
          changedAssets := [] })] := by
  obtain ⟨preTr, hred, hpre⟩ := bundleRun_miss_exists env inp h1 h2
  rw [hred] at hok ⊢
  rcases hrp : runPhase env inp (fetchPrevious env inp).1
      (decideSafeFlag inp (fetchPrevious env inp).1
        (probeKeys env inp.assetGraphHash).2) with ⟨res, pEvs⟩
  rcases res with e | gph
  · simp only [bundleFull, hrp] at hok
    exact absurd hok (by simp)
  · simp only [bundleFull, hrp] at hok ⊢
    exact postPhase_ok_stores env inp (preState env) _ _ gph _ g bh2 ca hok

/-- Witness for claim C7: on the concrete cold build, the bundler's dev
dependency is absent from the probing state, present in the state of the
authoritative second hash computation, and the result is stored under the
second cache key. -/
theorem claim_C7_witness :
    (preState baseEnv).devDepRequests.map Prod.fst = [] ∧
    (devDepKey (bundlerDevDep baseEnv) ∈
      (bundleRun baseEnv baseInput).finalState.devDepRequests.map Prod.fst ∧
     (bundleRun baseEnv baseInput).stores =
      [((getHashes baseEnv (bundleRun baseEnv baseInput).finalState
          baseInput.assetGraphHash).1,
        { bundleGraph := outGraph
          bundlerHash := some (probeKeys baseEnv baseInput.assetGraphHash).2
          changedAssets := [] })]) :=
  ⟨rfl,
   claim_C7 baseEnv baseInput outGraph "H" [] rfl (Or.inl rfl) (by decide)⟩

/-- Evaluation of claim C8 at the failing input: a durable-cache hit makes
BundlerRunner.bundle return the bare deserialized bundle graph — a value
on which the bundleGraph and changedAssets properties are undefined and no
bundlerHash exists — instead of the declared three-field record. -/
theorem claim_C8_failing :
    (bundleRun durableHitEnv baseInput).result = .ok (.bareGraph deserializedGraph) ∧
    BundleReturn.bundleGraphField (.bareGraph deserializedGraph) = none ∧
    BundleReturn.changedAssetsField (.bareGraph deserializedGraph) = none :=
  ⟨by decide, rfl, rfl⟩

/-- Claim C10: the durable-cache-hit path stores a result with an empty
changedAssets map and no bundlerHash field; the incremental-reuse
comparison never accepts a fetched result without a bundlerHash, so
incremental reuse is never eligible against a result restored from the
durable cache: the flag is forced to false and no patch is applied. -/
theorem claim_C10 :
    (∀ (env : Env) (inp : BundleInput) (bytes : String),
      env.getPreviousResult (probeKeys env inp.assetGraphHash).1 = none →
      env.shouldDisableCache = false →
      env.cacheGetBuffer (probeKeys env inp.assetGraphHash).1 = some bytes →
      (bundleRun env inp).stores =
        [((probeKeys env inp.assetGraphHash).1,
          { bundleGraph := env.deserialize bytes, bundlerHash := none,
            changedAssets := [] })]) ∧
    (∀ (inp : BundleInput) (r : StoredResult) (bh : String),
      r.bundlerHash = none → decideSafeFlag inp (some r) bh = false) ∧
    (∀ (env : Env) (inp : BundleInput) (ph : String) (r : StoredResult),
      env.getPreviousResult (probeKeys env inp.assetGraphHash).1 = none →
      (env.shouldDisableCache = true ∨
        env.cacheGetBuffer (probeKeys env inp.assetGraphHash).1 = none) →
      inp.previousAssetGraphHash = some ph →
      env.getRequestResult ("BundleGraph:" ++ ph) = some r →
      r.bundlerHash = none →
      (bundleRun env inp).safeToIncrementallyBundle = false ∧
      ∀ a, Ev.updateAsset a ∉ (bundleRun env inp).trace) := by
  refine ⟨?_, ?_, ?_⟩
  · intro env inp bytes h1 h2 h3
    rw [bundleRun_durableHit env inp bytes h1 h2 h3]
  · intro inp r bh hr
    simp [decideSafeFlag, hr]
  · intro env inp ph r h1 h2 hph hfetch hr
    obtain ⟨preTr, hred, hpre⟩ := bundleRun_miss_exists env inp h1 h2
    have hmis : (fetchPrevious env inp).1 = none ∨
        ∃ r2, (fetchPrevious env inp).1 = some r2 ∧
          r2.bundlerHash ≠ some (probeKeys env inp.assetGraphHash).2 := by
      simp only [fetchPrevious, hph]
      cases hs : inp.safeToIncrementallyBundle
      · simp
      · right
        exact ⟨r, by simp [hfetch], by simp [hr]⟩
    have hflag := decideSafeFlag_false_of_mismatch inp _ _ hmis
    rw [hred]
    refine ⟨by rw [bundleFull_flag]; exact hflag, ?_⟩
    refine bundleFull_no_update env inp _ _ preTr ?_ hflag
    intro e he a
    rcases hpre _ he with ⟨n, h⟩ | ⟨k, h⟩ | ⟨k, h⟩ | ⟨k, h⟩ <;>
      (subst h; intro hc; cases hc)

/-- Witness for claim C10: the concrete durable-cache hit stores exactly
the hash-less result, and a later build fetching a restored (hash-less)
prior result is not eligible for incremental reuse. -/
theorem claim_C10_witness :
    (bundleRun durableHitEnv baseInput).stores =
      [((probeKeys durableHitEnv baseInput.assetGraphHash).1,
        { bundleGraph := durableHitEnv.deserialize "bytes", bundlerHash := none,
          changedAssets := [] })] ∧
    decideSafeFlag warmInput (some noHashPrevResult) "H" = false ∧
    ((bundleRun restoredEnv warmInput).safeToIncrementallyBundle = false ∧
      (bundleRun restoredEnv warmInput).trace.count (Ev.updateAsset "a1") = 0) := by
  have C := claim_C10.2.2 restoredEnv warmInput "p" noHashPrevResult rfl
    (Or.inl rfl) rfl rfl rfl
  exact ⟨claim_C10.1 durableHitEnv baseInput "bytes" rfl rfl rfl,
    claim_C10.2.1 warmInput noHashPrevResult "H" rfl,
    C.1, List.count_eq_zero.mpr (C.2 "a1")⟩

theorem checkAbort_not_in_bundleRun (env : Env) (inp : BundleInput) :
    Ev.checkAbortSignal ∉ (bundleRun env inp).trace := by
  intro hx
  have := bundleRun_events env inp _ hx
  simp [Ev.engineShape] at this

theorem checkAbort_count_zero_pre (p : PipelineEnv) :
    (Ev.assetGraphBuild :: (bundleRun p.benv (pipelineInput p)).trace).count
      Ev.checkAbortSignal = 0 := by
  rw [List.count_eq_zero]
  intro hx
  rcases List.mem_cons.mp hx with h | h
  · cases h
  · exact checkAbort_not_in_bundleRun p.benv (pipelineInput p) h

theorem pipelineFinish_spec (p : PipelineEnv) (g : BundleGraphM)
    (ca : List (String × Asset)) (tr : List Ev)
    (hct : tr.count Ev.checkAbortSignal = 0) :
    (pipelineFinish p g ca tr).trace.count Ev.checkAbortSignal ≤ 1 ∧
    (Ev.checkAbortSignal ∈ (pipelineFinish p g ca tr).trace →
      (pipelineFinish p g ca tr).trace = tr ++ [Ev.writeBundles, Ev.checkAbortSignal] ∧
      (p.signalAborted = true →
        (pipelineFinish p g ca tr).result = .error .abortError) ∧
      (p.signalAborted = false →
        ∃ r, (pipelineFinish p g ca tr).result = .ok r)) := by
  rcases hw : p.writeBundlesFn g with e | info
  · simp only [pipelineFinish, hw]
    constructor
    · show (tr ++ [Ev.writeBundles]).count Ev.checkAbortSignal ≤ 1
      rw [List.count_append, hct]
      simp
    · intro hmem
      exfalso
      have hm : Ev.checkAbortSignal ∈ tr ++ [Ev.writeBundles] := hmem
      rcases List.mem_append.mp hm with h | h
      · rw [List.count_eq_zero] at hct
        exact hct h
      · simp only [List.mem_singleton] at h
        cases h
  · simp only [pipelineFinish, hw]
    rcases hs : p.signalAborted with _ | _
    · constructor
      · show (tr ++ [Ev.writeBundles, Ev.checkAbortSignal]).count Ev.checkAbortSignal ≤ 1
        rw [List.count_append, hct]
        simp
      · intro hmem
        refine ⟨rfl, fun hc => ?_, fun _ => ⟨_, rfl⟩⟩
        cases hc
    · constructor
      · show (tr ++ [Ev.writeBundles, Ev.checkAbortSignal]).count Ev.checkAbortSignal ≤ 1
        rw [List.count_append, hct]
        simp
      · intro hmem
        refine ⟨rfl, fun _ => rfl, fun hc => ?_⟩
        cases hc

/-- Claim C9: the build pipeline checks the cooperative cancellation
signal at most once, and when a check occurs it is the final action,
coming immediately after the bundle-writing step; if the signal is aborted
at that point, the pipeline surfaces the abort outcome instead of a
result, and if it is not, the pipeline returns the result; no cancellation
checkpoint exists inside bundle-graph construction, whose trace never
contains a signal check in any environment. -/
theorem claim_C9 :
    (∀ (env : Env) (inp : BundleInput),
      Ev.checkAbortSignal ∉ (bundleRun env inp).trace) ∧
    (∀ p : PipelineEnv,
      (pipelineRun p).trace.count Ev.checkAbortSignal ≤ 1) ∧
    (∀ p : PipelineEnv, Ev.checkAbortSignal ∈ (pipelineRun p).trace →
      (∃ tr, (pipelineRun p).trace = tr ++ [Ev.writeBundles, Ev.checkAbortSignal]) ∧
      (p.signalAborted = true → (pipelineRun p).result = .error .abortError) ∧
      (p.signalAborted = false → ∃ r, (pipelineRun p).result = .ok r)) := by
  refine ⟨checkAbort_not_in_bundleRun, ?_, ?_⟩
  · intro p
    have h0 := checkAbort_count_zero_pre p
    simp only [pipelineRun]
    rcases hres : (bundleRun p.benv (pipelineInput p)).result with e | ret
    · show (Ev.assetGraphBuild ::
          (bundleRun p.benv (pipelineInput p)).trace).count Ev.checkAbortSignal ≤ 1
      omega
    · rcases ret with ⟨g, bh, ca⟩ | r | g
      · exact (pipelineFinish_spec p g ca _ h0).1
      · exact (pipelineFinish_spec p r.bundleGraph r.changedAssets _ h0).1
      · show (Ev.assetGraphBuild ::
            (bundleRun p.benv (pipelineInput p)).trace).count Ev.checkAbortSignal ≤ 1
        omega
  · intro p hmem
    have h0 := checkAbort_count_zero_pre p
    simp only [pipelineRun] at hmem ⊢
    rcases hres : (bundleRun p.benv (pipelineInput p)).result with e | ret
    · rw [hres] at hmem
      have hm2 : Ev.checkAbortSignal ∈
          Ev.assetGraphBuild :: (bundleRun p.benv (pipelineInput p)).trace := hmem
      rw [List.count_eq_zero] at h0
      exact absurd hm2 h0
    · rw [hres] at hmem
      rcases ret with ⟨g, bh, ca⟩ | r | g
      · obtain ⟨htr, hab, hnab⟩ := (pipelineFinish_spec p g ca _ h0).2 hmem
        exact ⟨⟨_, htr⟩, hab, hnab⟩
      · obtain ⟨htr, hab, hnab⟩ := (pipelineFinish_spec p r.bundleGraph
          r.changedAssets _ h0).2 hmem
        exact ⟨⟨_, htr⟩, hab, hnab⟩
      · have hm2 : Ev.checkAbortSignal ∈
            Ev.assetGraphBuild :: (bundleRun p.benv (pipelineInput p)).trace := hmem
        rw [List.count_eq_zero] at h0
        exact absurd hm2 h0

/-- Witness for claim C9: on the concrete pipeline run the signal is
checked at most once; with an aborted signal the pipeline surfaces the
abort outcome; the bundle-graph computation itself emits no check. -/
theorem claim_C9_witness :
    (bundleRun baseEnv baseInput).trace.count Ev.checkAbortSignal = 0 ∧
    (pipelineRun basePipelineEnv).trace.count Ev.checkAbortSignal ≤ 1 ∧
    (pipelineRun abortedPipelineEnv).result = .error .abortError :=
  ⟨List.count_eq_zero.mpr (claim_C9.1 baseEnv baseInput),
   claim_C9.2.1 basePipelineEnv,
   (claim_C9.2.2 abortedPipelineEnv (by decide)).2.1 rfl⟩

end Parcel
